import Mathlib

/-!
Verification development for the OnTrack build-element model
(`Application_Files/body.py`, helpers from `Application_Files/organs.py`).

Modelling conventions:
* Python numbers (int/float) are modelled as `ℚ`; arithmetic is exact.
* Python dicts are modelled as insertion-ordered association lists
  (`Dict α := List (String × α)`); all dicts built by the modelled code have
  unique keys (`DNodup`), and Python's `d[k]` lookup is `dget`.
* Serialized states (nested Python lists of strings/numbers/None) are the
  inductive `Val`.
* An operation that can raise a `KeyError` / parse error in Python returns
  `Option _`; `none` marks the raised exception.
* `datetime` values are modelled at the precision at which the code
  serializes them (`%Y-%m-%d %H:%M`), and `datetime.now()` is passed in
  explicitly as a `today : Date` argument where `set_state` consults it.
-/

set_option maxHeartbeats 1000000

namespace OnTrack

/-! ### Dictionaries (Python `dict`, `organs.summed_dicts`, `organs.maxed_dicts`) -/

/-- A Python dict with string keys: insertion-ordered association list. -/
abbrev Dict (α : Type) := List (String × α)

/-- Python `d[k]` / `k in d`: first (= only, for unique-keyed dicts) binding. -/
def dget {α : Type} : Dict α → String → Option α
  | [], _ => none
  | (k', v) :: rest, k => if k' = k then some v else dget rest k

/-- Python `d[k] = v`: replace the binding in place, or append a new one. -/
def dset {α : Type} : Dict α → String → α → Dict α
  | [], k, v => [(k, v)]
  | (k', v') :: rest, k, v =>
      if k' = k then (k, v) :: rest else (k', v') :: dset rest k v

def keysOf {α : Type} (d : Dict α) : List String := d.map Prod.fst

/-- The keys of a dict are pairwise distinct (true of every Python dict). -/
def DNodup {α : Type} (d : Dict α) : Prop := (keysOf d).Nodup

/-- One pass of `organs.summed_dicts`: fold the bindings of `d` into the
accumulator `r`; a missing key starts at 0 (`result[key] = 0; result[key] +=`). -/
def sum_into (r d : Dict ℚ) : Dict ℚ :=
  d.foldl (fun res kv => dset res kv.1 ((dget res kv.1).getD 0 + kv.2)) r

/-- `organs.summed_dicts(d1, d2)`: start from `{}`, fold both arguments. -/
def summed_dicts (d1 d2 : Dict ℚ) : Dict ℚ := sum_into (sum_into [] d1) d2

/-- One pass of `organs.maxed_dicts`: keep the larger value per key. -/
def max_into (r d : Dict ℚ) : Dict ℚ :=
  d.foldl (fun res kv =>
    match dget res kv.1 with
    | none => dset res kv.1 kv.2
    | some v0 => if kv.2 > v0 then dset res kv.1 kv.2 else res) r

/-- `organs.maxed_dicts(d1, d2)`: start from `{}`, fold both arguments. -/
def maxed_dicts (d1 d2 : Dict ℚ) : Dict ℚ := max_into (max_into [] d1) d2

/-- Python `d1.update(d2)` (used by `Gymbag.performance_results` and
`Program.workout_periods`): later bindings overwrite earlier ones. -/
def dupdate {α : Type} (d1 d2 : Dict α) : Dict α :=
  d2.foldl (fun res kv => dset res kv.1 kv.2) d1

theorem dget_dset_self {α : Type} (d : Dict α) (k : String) (v : α) :
    dget (dset d k v) k = some v := by
  induction d with
  | nil => simp [dset, dget]
  | cons hd tl ih =>
    obtain ⟨k', v'⟩ := hd
    by_cases h : k' = k
    · simp [dset, dget, h]
    · simp [dset, dget, h, ih]

theorem dget_dset_ne {α : Type} (d : Dict α) (k k' : String) (v : α)
    (h : k ≠ k') : dget (dset d k v) k' = dget d k' := by
  induction d with
  | nil => simp [dset, dget, h]
  | cons hd tl ih =>
    obtain ⟨k0, v0⟩ := hd
    by_cases h0 : k0 = k
    · subst h0
      simp [dset, dget, h, Ne.symm h]
    · by_cases h1 : k0 = k'
      · simp [dset, dget, h0, h1, Ne.symm h]
      · simp [dset, dget, h0, h1, ih]

theorem keysOf_dset {α : Type} (d : Dict α) (k : String) (v : α) :
    keysOf (dset d k v) =
      if k ∈ keysOf d then keysOf d else keysOf d ++ [k] := by
  induction d with
  | nil => simp [dset, keysOf]
  | cons hd tl ih =>
    obtain ⟨k0, v0⟩ := hd
    simp only [keysOf] at ih ⊢
    by_cases h0 : k0 = k
    · subst h0
      simp [dset]
    · by_cases hm : k ∈ List.map Prod.fst tl
      · simp [dset, h0, ih, hm, Ne.symm h0]
      · simp [dset, h0, ih, hm, Ne.symm h0]

theorem DNodup_dset {α : Type} (d : Dict α) (k : String) (v : α)
    (h : DNodup d) : DNodup (dset d k v) := by
  unfold DNodup at *
  rw [keysOf_dset]
  by_cases hm : k ∈ keysOf d
  · simpa [hm] using h
  · simp only [hm, if_false]
    simpa [List.nodup_append] using ⟨h, hm⟩

theorem dget_eq_none_of_not_mem {α : Type} (d : Dict α) (k : String)
    (h : k ∉ keysOf d) : dget d k = none := by
  induction d with
  | nil => rfl
  | cons hd tl ih =>
    obtain ⟨k0, v0⟩ := hd
    simp only [keysOf, List.map_cons, List.mem_cons, not_or] at h
    have h0 : k0 ≠ k := fun hx => h.1 hx.symm
    simp only [dget, if_neg h0]
    exact ih h.2

theorem dget_sum_into (d : Dict ℚ) :
    DNodup d → ∀ (r : Dict ℚ) (k : String),
      dget (sum_into r d) k =
        match dget d k with
        | none => dget r k
        | some v => some ((dget r k).getD 0 + v) := by
  induction d with
  | nil => intro _ r k; rfl
  | cons hdp tl ih =>
    obtain ⟨k1, v1⟩ := hdp
    intro hd r k
    simp only [DNodup, keysOf, List.map_cons, List.nodup_cons] at hd
    have step : sum_into r ((k1, v1) :: tl) =
        sum_into (dset r k1 ((dget r k1).getD 0 + v1)) tl := rfl
    rw [step, ih hd.2]
    by_cases hk : k1 = k
    · subst hk
      have hnone : dget tl k1 = none :=
        dget_eq_none_of_not_mem tl k1 (by simpa [keysOf] using hd.1)
      simp [dget, hnone, dget_dset_self]
    · have e2 : dget (dset r k1 ((dget r k1).getD 0 + v1)) k = dget r k :=
        dget_dset_ne _ _ _ _ hk
      simp only [dget, if_neg hk, e2]

theorem DNodup_sum_into (d : Dict ℚ) :
    ∀ r : Dict ℚ, DNodup r → DNodup (sum_into r d) := by
  induction d with
  | nil => intro r h; exact h
  | cons hdp tl ih =>
    obtain ⟨k1, v1⟩ := hdp
    intro r h
    exact ih _ (DNodup_dset _ _ _ h)

theorem DNodup_summed (d1 d2 : Dict ℚ) : DNodup (summed_dicts d1 d2) :=
  DNodup_sum_into _ _ (DNodup_sum_into _ _ (by simp [DNodup, keysOf]))

theorem dget_summed (d1 d2 : Dict ℚ) (k : String)
    (h1 : DNodup d1) (h2 : DNodup d2) :
    dget (summed_dicts d1 d2) k =
      match dget d1 k, dget d2 k with
      | none, none => none
      | some a, none => some a
      | none, some b => some b
      | some a, some b => some (a + b) := by
  unfold summed_dicts
  rw [dget_sum_into d2 h2, dget_sum_into d1 h1]
  cases ha : dget d1 k <;> cases hb : dget d2 k <;>
    simp [dget]

theorem dget_max_into (d : Dict ℚ) :
    DNodup d → ∀ (r : Dict ℚ) (k : String),
      dget (max_into r d) k =
        match dget d k with
        | none => dget r k
        | some v =>
            some (match dget r k with
                  | none => v
                  | some v0 => if v > v0 then v else v0) := by
  induction d with
  | nil => intro _ r k; rfl
  | cons hdp tl ih =>
    obtain ⟨k1, v1⟩ := hdp
    intro hd r k
    simp only [DNodup, keysOf, List.map_cons, List.nodup_cons] at hd
    have step : max_into r ((k1, v1) :: tl) =
        max_into (match dget r k1 with
                  | none => dset r k1 v1
                  | some v0 => if v1 > v0 then dset r k1 v1 else r) tl := rfl
    rw [step, ih hd.2]
    by_cases hk : k1 = k
    · subst hk
      have hnone : dget tl k1 = none :=
        dget_eq_none_of_not_mem tl k1 (by simpa [keysOf] using hd.1)
      rw [hnone]
      cases hr : dget r k1 with
      | none => simp [dget, hr, dget_dset_self]
      | some v0 =>
        by_cases hgt : v1 > v0
        · simp [dget, hr, hgt, dget_dset_self]
        · simp [dget, hr, hgt]
    · have e0 : ∀ x : ℚ, dget (dset r k1 x) k = dget r k :=
        fun x => dget_dset_ne _ _ _ _ hk
      cases hr : dget r k1 with
      | none => simp only [dget, if_neg hk, e0]
      | some v0 =>
        by_cases hgt : v1 > v0
        · simp only [dget, if_neg hk, hgt, if_true, e0]
        · simp only [dget, if_neg hk, hgt, if_false]

theorem DNodup_max_into (d : Dict ℚ) :
    ∀ r : Dict ℚ, DNodup r → DNodup (max_into r d) := by
  induction d with
  | nil => intro r h; exact h
  | cons hdp tl ih =>
    obtain ⟨k1, v1⟩ := hdp
    intro r h
    have hstep : DNodup (match dget r k1 with
        | none => dset r k1 v1
        | some v0 => if v1 > v0 then dset r k1 v1 else r) := by
      cases hr : dget r k1 with
      | none => exact DNodup_dset _ _ _ h
      | some v0 =>
        by_cases hgt : v1 > v0
        · simp only [hgt, if_true]
          exact DNodup_dset _ _ _ h
        · simp only [hgt, if_false]
          exact h
    exact ih _ hstep

theorem DNodup_maxed (d1 d2 : Dict ℚ) : DNodup (maxed_dicts d1 d2) :=
  DNodup_max_into _ _ (DNodup_max_into _ _ (by simp [DNodup, keysOf]))

theorem dget_maxed (d1 d2 : Dict ℚ) (k : String)
    (h1 : DNodup d1) (h2 : DNodup d2) :
    dget (maxed_dicts d1 d2) k =
      match dget d1 k, dget d2 k with
      | none, none => none
      | some a, none => some a
      | none, some b => some b
      | some a, some b => some (if b > a then b else a) := by
  unfold maxed_dicts
  rw [dget_max_into d2 h2, dget_max_into d1 h1]
  cases ha : dget d1 k <;> cases hb : dget d2 k <;>
    simp [dget]

theorem dget_dupdate {α : Type} (d2 : Dict α) :
    DNodup d2 → ∀ (d1 : Dict α) (k : String),
      dget (dupdate d1 d2) k =
        match dget d2 k with
        | some v => some v
        | none => dget d1 k := by
  induction d2 with
  | nil => intro _ d1 k; rfl
  | cons hdp tl ih =>
    obtain ⟨k1, v1⟩ := hdp
    intro hd d1 k
    simp only [DNodup, keysOf, List.map_cons, List.nodup_cons] at hd
    have step : dupdate d1 ((k1, v1) :: tl) = dupdate (dset d1 k1 v1) tl := rfl
    rw [step, ih hd.2]
    by_cases hk : k1 = k
    · subst hk
      have hnone : dget tl k1 = none :=
        dget_eq_none_of_not_mem tl k1 (by simpa [keysOf] using hd.1)
      simp [dget, hnone, dget_dset_self]
    · have e0 : dget (dset d1 k1 v1) k = dget d1 k := dget_dset_ne _ _ _ _ hk
      simp only [dget, if_neg hk, e0]

theorem DNodup_dupdate {α : Type} (d2 : Dict α) :
    ∀ d1 : Dict α, DNodup d1 → DNodup (dupdate d1 d2) := by
  induction d2 with
  | nil => intro d1 h; exact h
  | cons hdp tl ih =>
    obtain ⟨k1, v1⟩ := hdp
    intro d1 h
    exact ih _ (DNodup_dset _ _ _ h)

/-! ### Serialized state values

`state()` / `set_state()` exchange nested Python lists whose atoms are
strings, numbers and `None`. -/

inductive Val where
  | s (x : String)
  | n (x : ℚ)
  | nil
  | l (xs : List Val)

/-- Python `None in xs` for a serialized list (equality against `None` only
holds for `None` itself among state atoms). -/
def Val.isNil : Val → Bool
  | .nil => true
  | _ => false

/-! ### Clock and calendar values

Python `datetime` values are modelled at the precision the code serializes
(`"%H:%M"`, `"%Y-%m-%d"`, `"%Y-%m-%d %H:%M"`). -/

structure HM where
  hour : ℕ
  minute : ℕ
  deriving DecidableEq

structure Date where
  year : ℕ
  month : ℕ
  day : ℕ
  deriving DecidableEq

structure DT where
  date : Date
  hour : ℕ
  minute : ℕ
  deriving DecidableEq

/-- The ranges `datetime.time` itself enforces. -/
def HM.Wf (t : HM) : Prop := t.hour < 24 ∧ t.minute < 60

/-- The ranges `datetime.date` enforces (day-of-month validity is
approximated by `1..31`, as in the `strptime` patterns the code uses). -/
def Date.Wf (d : Date) : Prop :=
  d.year ≤ 9999 ∧ 1 ≤ d.month ∧ d.month ≤ 12 ∧ 1 ≤ d.day ∧ d.day ≤ 31

def DT.Wf (t : DT) : Prop := t.date.Wf ∧ t.hour < 24 ∧ t.minute < 60

instance (t : HM) : Decidable t.Wf := by unfold HM.Wf; infer_instance
instance (d : Date) : Decidable d.Wf := by unfold Date.Wf; infer_instance
instance (t : DT) : Decidable t.Wf := by unfold DT.Wf; infer_instance

/-- The ASCII digit for `n % 10`. -/
def digitChar (n : ℕ) : Char := Char.ofNat (48 + n % 10)

/-- The value of an ASCII digit character; `none` otherwise. -/
def digitVal (c : Char) : Option ℕ :=
  if 48 ≤ c.toNat ∧ c.toNat ≤ 57 then some (c.toNat - 48) else none

/-- `strftime` zero-padded two-digit field (`%m`, `%d`, `%H`, `%M`). -/
def pad2 (n : ℕ) : List Char := [digitChar (n / 10), digitChar n]

/-- `strftime` zero-padded four-digit year field (`%Y`). -/
def pad4 (n : ℕ) : List Char :=
  [digitChar (n / 1000), digitChar (n / 100), digitChar (n / 10), digitChar n]

/-- `strftime("%H:%M")` on a `datetime.time`. -/
def formatHM (t : HM) : String :=
  String.mk (pad2 t.hour ++ [':'] ++ pad2 t.minute)

/-- `strftime("%Y-%m-%d")` on a `datetime.date`. -/
def formatDate (d : Date) : String :=
  String.mk (pad4 d.year ++ ['-'] ++ pad2 d.month ++ ['-'] ++ pad2 d.day)

/-- `strftime("%Y-%m-%d %H:%M")` on a `datetime.datetime`. -/
def formatDT (t : DT) : String :=
  String.mk (pad4 t.date.year ++ ['-'] ++ pad2 t.date.month ++ ['-'] ++
    pad2 t.date.day ++ [' '] ++ pad2 t.hour ++ [':'] ++ pad2 t.minute)

def parse2 (c1 c2 : Char) : Option ℕ :=
  match digitVal c1, digitVal c2 with
  | some d1, some d2 => some (10 * d1 + d2)
  | _, _ => none

def parse4 (c1 c2 c3 c4 : Char) : Option ℕ :=
  match digitVal c1, digitVal c2, digitVal c3, digitVal c4 with
  | some d1, some d2, some d3, some d4 =>
      some (1000 * d1 + 100 * d2 + 10 * d3 + d4)
  | _, _, _, _ => none

/-- `datetime.datetime.strptime(s, "%H:%M").time()`; `none` is the raised
`ValueError`. Restricted to the zero-padded width the code itself emits. -/
def parseHM (s : String) : Option HM :=
  match s.data with
  | [h1, h2, ':', m1, m2] =>
      match parse2 h1 h2, parse2 m1 m2 with
      | some h, some m => if h < 24 ∧ m < 60 then some ⟨h, m⟩ else none
      | _, _ => none
  | _ => none

/-- `datetime.datetime.strptime(s, "%Y-%m-%d").date()`; `none` is the raised
`ValueError`. -/
def parseDate (s : String) : Option Date :=
  match s.data with
  | [y1, y2, y3, y4, '-', m1, m2, '-', d1, d2] =>
      match parse4 y1 y2 y3 y4, parse2 m1 m2, parse2 d1 d2 with
      | some y, some m, some d =>
          if 1 ≤ m ∧ m ≤ 12 ∧ 1 ≤ d ∧ d ≤ 31 then some ⟨y, m, d⟩ else none
      | _, _, _ => none
  | _ => none

/-- `datetime.datetime.strptime(s, "%Y-%m-%d %H:%M")`; `none` is the raised
`ValueError`. -/
def parseDT (s : String) : Option DT :=
  match s.data with
  | [y1, y2, y3, y4, '-', m1, m2, '-', d1, d2, ' ', h1, h2, ':', n1, n2] =>
      match parse4 y1 y2 y3 y4, parse2 m1 m2, parse2 d1 d2,
            parse2 h1 h2, parse2 n1 n2 with
      | some y, some m, some d, some h, some n =>
          if 1 ≤ m ∧ m ≤ 12 ∧ 1 ≤ d ∧ d ≤ 31 ∧ h < 24 ∧ n < 60 then
            some ⟨⟨y, m, d⟩, h, n⟩
          else none
      | _, _, _, _, _ => none
  | _ => none

theorem digitVal_digitChar (n : ℕ) : digitVal (digitChar n) = some (n % 10) := by
  have h10 : n % 10 < 10 := Nat.mod_lt _ (by norm_num)
  have base : ∀ m : ℕ, m < 10 → digitVal (Char.ofNat (48 + m)) = some m := by
    decide
  simpa [digitChar] using base (n % 10) h10

theorem digitVal_lt (c : Char) (d : ℕ) (h : digitVal c = some d) : d < 10 := by
  unfold digitVal at h
  split at h
  · rename_i hc
    cases h
    omega
  · exact absurd h (by simp)

theorem parse2_pad2 (n : ℕ) (h : n < 100) :
    parse2 (digitChar (n / 10)) (digitChar n) = some n := by
  have e1 : n / 10 % 10 = n / 10 := Nat.mod_eq_of_lt (by omega)
  simp only [parse2, digitVal_digitChar, e1]
  congr 1
  omega

theorem parse4_pad4 (n : ℕ) (h : n < 10000) :
    parse4 (digitChar (n / 1000)) (digitChar (n / 100)) (digitChar (n / 10))
      (digitChar n) = some n := by
  have e1 : n / 1000 % 10 = n / 1000 := Nat.mod_eq_of_lt (by omega)
  simp only [parse4, digitVal_digitChar, e1]
  congr 1
  omega

theorem parseHM_formatHM (t : HM) (h : t.Wf) : parseHM (formatHM t) = some t := by
  obtain ⟨hh, hm⟩ := h
  show parseHM (String.mk (pad2 t.hour ++ [':'] ++ pad2 t.minute)) = some t
  simp only [parseHM, pad2, List.cons_append, List.nil_append]
  rw [parse2_pad2 t.hour (by omega), parse2_pad2 t.minute (by omega)]
  simp [hh, hm]

theorem parseDate_formatDate (d : Date) (h : d.Wf) :
    parseDate (formatDate d) = some d := by
  obtain ⟨hy, hm1, hm2, hd1, hd2⟩ := h
  show parseDate (String.mk (pad4 d.year ++ ['-'] ++ pad2 d.month ++ ['-'] ++
    pad2 d.day)) = some d
  simp only [parseDate, pad4, pad2, List.cons_append, List.nil_append]
  rw [parse4_pad4 d.year (by omega), parse2_pad2 d.month (by omega),
    parse2_pad2 d.day (by omega)]
  simp [hm1, hm2, hd1, hd2]

theorem parseDT_formatDT (t : DT) (h : t.Wf) : parseDT (formatDT t) = some t := by
  obtain ⟨⟨hy, hm1, hm2, hd1, hd2⟩, hh, hn⟩ := h
  show parseDT (String.mk (pad4 t.date.year ++ ['-'] ++ pad2 t.date.month ++
    ['-'] ++ pad2 t.date.day ++ [' '] ++ pad2 t.hour ++ [':'] ++
    pad2 t.minute)) = some t
  simp only [parseDT, pad4, pad2, List.cons_append, List.nil_append]
  rw [parse4_pad4 t.date.year (by omega), parse2_pad2 t.date.month (by omega),
    parse2_pad2 t.date.day (by omega), parse2_pad2 t.hour (by omega),
    parse2_pad2 t.minute (by omega)]
  simp [hm1, hm2, hd1, hd2, hh, hn]

theorem parseHM_Wf (s : String) (t : HM) (h : parseHM s = some t) : t.Wf := by
  unfold parseHM at h
  split at h
  · split at h
    · split at h
      · rename_i hcond
        cases h
        exact hcond
      · exact absurd h (by simp)
    · exact absurd h (by simp)
  · exact absurd h (by simp)

theorem parseDate_Wf (s : String) (d : Date) (h : parseDate s = some d) :
    d.Wf := by
  unfold parseDate at h
  split at h
  · rename_i hmatch
    split at h
    · rename_i y m dd hy hm hd
      split at h
      · rename_i hcond
        cases h
        have hy10 : y < 10000 := by
          unfold parse4 at hy
          split at hy
          · rename_i d1 d2 d3 d4 h1 h2 h3 h4
            have := digitVal_lt _ _ h1
            have := digitVal_lt _ _ h2
            have := digitVal_lt _ _ h3
            have := digitVal_lt _ _ h4
            cases hy
            omega
          · exact absurd hy (by simp)
        refine ⟨?_, hcond.1, hcond.2.1, hcond.2.2.1, hcond.2.2.2⟩
        show y ≤ 9999
        omega
      · exact absurd h (by simp)
    · exact absurd h (by simp)
  · exact absurd h (by simp)

theorem parseDT_Wf (s : String) (t : DT) (h : parseDT s = some t) : t.Wf := by
  unfold parseDT at h
  split at h
  · rename_i hmatch
    split at h
    · rename_i y m dd hh nn hy hm hd hh2 hn2
      split at h
      · rename_i hcond
        cases h
        have hy10 : y < 10000 := by
          unfold parse4 at hy
          split at hy
          · rename_i d1 d2 d3 d4 h1 h2 h3 h4
            have := digitVal_lt _ _ h1
            have := digitVal_lt _ _ h2
            have := digitVal_lt _ _ h3
            have := digitVal_lt _ _ h4
            cases hy
            omega
          · exact absurd hy (by simp)
        refine ⟨⟨?_, hcond.1, hcond.2.1, hcond.2.2.1, hcond.2.2.2.1⟩,
          hcond.2.2.2.2.1, hcond.2.2.2.2.2⟩
        show y ≤ 9999
        omega
      · exact absurd h (by simp)
    · exact absurd h (by simp)
  · exact absurd h (by simp)

/-! ### Reference tables (`BuildCenter` class attributes) -/

/-- Food Details entry `[description, group ID, [unit sequences]]`;
a unit sequence is `[amount, unit, weight]`. -/
structure FoodDetail where
  description : String
  groupid : String
  unitsequences : List (ℚ × String × ℚ)
  deriving DecidableEq

/-- Exercise Details entry
`[description, focus muscle, [metric units], [tags]]`. -/
structure ExerciseDetail where
  description : String
  focusmuscle : String
  units : List String
  tags : List String
  deriving DecidableEq

/-- Food Details reference dict (`fdref`). -/
abbrev FdRef := Dict FoodDetail
/-- Food Nutrients reference dict (`fnref`): per-100g values by nutrient id. -/
abbrev FnRef := Dict (Dict ℚ)
/-- Exercise Details reference dict (`edref`). -/
abbrev EdRef := Dict ExerciseDetail

/-- Run a per-child parser over a serialized child list, as the `set_state`
loops do; `none` as soon as one child raises. -/
def parse_list {α : Type} (f : Val → Option α) : List Val → Option (List α)
  | [] => some []
  | v :: vs =>
      match f v, parse_list f vs with
      | some x, some xs => some (x :: xs)
      | _, _ => none

/-! ### Nutrition build elements -/

/-- `Quantity`: referenced Food item id, and the 0-or-1-entry container
holding the portion data set `[amount, unit]`. -/
structure Quantity where
  itemid : String
  data : Option (ℚ × String)
  deriving DecidableEq

def Quantity.amount (q : Quantity) : ℚ :=
  match q.data with
  | some p => p.1
  | none => 0

def Quantity.unit (q : Quantity) : String :=
  match q.data with
  | some p => p.2
  | none => "no unit"

/-- The `for sequence in self.fdref()[self._itemid][2]` scan inside
`Quantity.weight`: first sequence whose unit matches wins; `0` after the
loop when none matches. -/
def weight_scan (seqs : List (ℚ × String × ℚ)) (amount : ℚ) (unit : String) :
    ℚ :=
  match seqs with
  | [] => 0
  | seq :: rest =>
      if seq.2.1 = unit then (amount / seq.1) * seq.2.2
      else weight_scan rest amount unit

/-- `Quantity.weight`; `none` is the `KeyError` raised when the referenced
Food id is absent from Food Details (the table is only consulted when the
amount is nonzero and the unit is not the literal `"g"`). -/
def Quantity.weight (fdref : FdRef) (q : Quantity) : Option ℚ :=
  if q.amount = 0 then some 0
  else if q.unit = "g" then some q.amount
  else
    match dget fdref q.itemid with
    | none => none
    | some fd => some (weight_scan fd.unitsequences q.amount q.unit)

/-- The `try` body of `Quantity.nutrient_value`: `none` is a `KeyError`
(food id absent from Food Nutrients, nutrient id absent from the food's
nutrient dict, or the `KeyError` raised inside `weight()`). -/
def Quantity.nutrient_value_attempt (fdref : FdRef) (fnref : FnRef)
    (q : Quantity) (nutrient_id : String) : Option ℚ :=
  match dget fnref q.itemid with
  | none => none
  | some content =>
      match dget content nutrient_id with
      | none => none
      | some hectogram_value =>
          match q.weight fdref with
          | none => none
          | some w => some ((w / 100) * hectogram_value)

/-- `Quantity.nutrient_value`: the `try` body with its
`except KeyError: return 0` handler. -/
def Quantity.nutrient_value (fdref : FdRef) (fnref : FnRef)
    (q : Quantity) (nutrient_id : String) : ℚ :=
  match Quantity.nutrient_value_attempt fdref fnref q nutrient_id with
  | some v => v
  | none => 0

/-- `Lunchbox.macro_weights` start value `{"203": 0, "204": 0, "205": 0}`
(USDA ids: protein, fat, carbohydrate). -/
def macro_base : Dict ℚ := [("203", 0), ("204", 0), ("205", 0)]

/-- `Quantity.macro_weights`: each of the three macro ids mapped to its
`nutrient_value`. -/
def Quantity.macro_weights (fdref : FdRef) (fnref : FnRef) (q : Quantity) :
    Dict ℚ :=
  [("203", q.nutrient_value fdref fnref "203"),
   ("204", q.nutrient_value fdref fnref "204"),
   ("205", q.nutrient_value fdref fnref "205")]

def Quantity.state (q : Quantity) : Val :=
  .l [.s "Q", .n q.amount, .s q.unit]

/-- `Quantity.set_state`: store `new_state[1:]` as the single container
entry. The tag position is not inspected. `item_id` is the id the parent
passed to the `Quantity` constructor. -/
def Quantity.set_state (item_id : String) : Val → Option Quantity
  | .l (_ :: .n a :: .s u :: _) => some ⟨item_id, some (a, u)⟩
  | _ => none

/-- `Ingredient`: referenced Food item id and child `Quantity` objects. -/
structure Ingredient where
  itemid : String
  children : List Quantity
  deriving DecidableEq

/-- `Ingredient.description`: `self.fdref()[self._itemid][0]`; `none` is the
raised `KeyError`. -/
def Ingredient.description (fdref : FdRef) (ing : Ingredient) :
    Option String :=
  (dget fdref ing.itemid).map FoodDetail.description

/-- `Lunchbox.nutrient_value` as inherited by `Ingredient`: sum over the
child Quantities. -/
def Ingredient.nutrient_value (fdref : FdRef) (fnref : FnRef)
    (ing : Ingredient) (nutrient_id : String) : ℚ :=
  ing.children.foldl
    (fun total q => total + q.nutrient_value fdref fnref nutrient_id) 0

/-- `Lunchbox.macro_weights` as inherited by `Ingredient`. -/
def Ingredient.macro_weights (fdref : FdRef) (fnref : FnRef)
    (ing : Ingredient) : Dict ℚ :=
  ing.children.foldl
    (fun total q => summed_dicts total (q.macro_weights fdref fnref))
    macro_base

def Ingredient.state (ing : Ingredient) : Val :=
  .l [.s "I", .l (ing.children.map Quantity.state), .s ing.itemid]

/-- `Ingredient.set_state`: rebuild the container from `new_state[1]`,
passing this Ingredient's own item id to each fresh child `Quantity`.
The item id embedded at `new_state[2]` is not read. -/
def Ingredient.set_state (item_id : String) : Val → Option Ingredient
  | .l (_ :: .l qs :: _) =>
      match parse_list (Quantity.set_state item_id) qs with
      | some cs => some ⟨item_id, cs⟩
      | none => none
  | _ => none

/-- A Recipe-or-Ingredient subtree: the two child kinds a `Meal` or
`Recipe` container may hold. -/
inductive RI where
  | recipe (description : String) (portion : ℚ × ℚ × String)
      (children : List RI)
  | ingredient (ing : Ingredient)

mutual

def RI.state : RI → Val
  | .recipe d p cs =>
      .l [.s "R", .l (RI.state_list cs), .s d, .l [.n p.1, .n p.2.1, .s p.2.2]]
  | .ingredient ing => ing.state

def RI.state_list : List RI → List Val
  | [] => []
  | c :: cs => RI.state c :: RI.state_list cs

end

mutual

/-- `Recipe.nutrient_value`: the inherited child sum scaled by
`consumed / prepared`. -/
def RI.nutrient_value (fdref : FdRef) (fnref : FnRef) (nid : String) :
    RI → ℚ
  | .recipe _ p cs => (p.1 / p.2.1) * RI.nv_fold fdref fnref nid 0 cs
  | .ingredient ing => ing.nutrient_value fdref fnref nid

/-- The `Lunchbox.nutrient_value` accumulation loop over a child list. -/
def RI.nv_fold (fdref : FdRef) (fnref : FnRef) (nid : String) :
    ℚ → List RI → ℚ
  | total, [] => total
  | total, c :: cs =>
      RI.nv_fold fdref fnref nid
        (total + RI.nutrient_value fdref fnref nid c) cs

end

mutual

/-- `Recipe.macro_weights`: the inherited child fold, then every value in
the dict multiplied by `consumed / prepared`. -/
def RI.macro_weights (fdref : FdRef) (fnref : FnRef) : RI → Dict ℚ
  | .recipe _ p cs =>
      (RI.mw_fold fdref fnref macro_base cs).map
        (fun kv => (kv.1, kv.2 * (p.1 / p.2.1)))
  | .ingredient ing => ing.macro_weights fdref fnref

/-- The `Lunchbox.macro_weights` accumulation loop over a child list. -/
def RI.mw_fold (fdref : FdRef) (fnref : FnRef) : Dict ℚ → List RI → Dict ℚ
  | total, [] => total
  | total, c :: cs =>
      RI.mw_fold fdref fnref
        (summed_dicts total (RI.macro_weights fdref fnref c)) cs

end

/-- `Recipe.template_state` is `self.state()` unchanged (defined on Recipe
objects; `Quantity`/`Ingredient` define no `template_state` of their own and
appear inside templates through `state()`). -/
def Recipe.template_state (d : String) (p : ℚ × ℚ × String)
    (cs : List RI) : Val :=
  RI.state (.recipe d p cs)

mutual

/-- The dispatch a `Recipe`/`Meal` `set_state` performs per child state:
`item_id = None if child_state[0] == "R" else child_state[2]`, then
`build_element(child_state[0], item_id)` and `child.set_state(...)`. Tags
other than `"R"`/`"I"` never occur in well-formed Recipe/Meal child states. -/
def RI.parse_child : Val → Option RI
  | .l (.s "R" :: rest) => RI.parse_recipe_rest rest
  | .l (.s "I" :: .l qs :: .s iid :: _) =>
      match parse_list (Quantity.set_state iid) qs with
      | some cs => some (.ingredient ⟨iid, cs⟩)
      | none => none
  | _ => none

/-- `Recipe.set_state` on `new_state[1:]` (the tag is never inspected):
rebuild children, then assign description and portion. -/
def RI.parse_recipe_rest : List Val → Option RI
  | .l cs :: .s d :: .l [.n co, .n pr, .s u] :: _ =>
      match RI.parse_children cs with
      | some children => some (.recipe d (co, pr, u) children)
      | none => none
  | _ => none

/-- The `for child_state in new_state[1]` loop of `Recipe.set_state` /
`Meal.set_state`. -/
def RI.parse_children : List Val → Option (List RI)
  | [] => some []
  | v :: vs =>
      match RI.parse_child v, RI.parse_children vs with
      | some c, some cs => some (c :: cs)
      | _, _ => none

end

/-- `Recipe.set_state` as called on a Recipe object: the tag position is
not inspected. -/
def Recipe.set_state : Val → Option RI
  | .l (_ :: rest) => RI.parse_recipe_rest rest
  | _ => none

/-- `Meal`: description, time, and Recipe/Ingredient children. -/
structure Meal where
  description : String
  time : HM
  children : List RI

def Meal.state (m : Meal) : Val :=
  .l [.s "M", .l (RI.state_list m.children), .s m.description,
      .s (formatHM m.time)]

/-- `Meal.template_state`: `self.state()[:3] + ["00:00"]`. -/
def Meal.template_state (m : Meal) : Val :=
  match m.state with
  | .l xs => .l (xs.take 3 ++ [.s "00:00"])
  | v => v

/-- `Meal.set_state`: rebuild children (same dispatch as Recipe), then
assign description and the `strptime`-parsed time. -/
def Meal.set_state : Val → Option Meal
  | .l (_ :: .l cs :: .s d :: .s t :: _) =>
      match RI.parse_children cs, parseHM t with
      | some children, some tm => some ⟨d, tm, children⟩
      | _, _ => none
  | _ => none

def Meal.nutrient_value (fdref : FdRef) (fnref : FnRef) (m : Meal)
    (nid : String) : ℚ :=
  m.children.foldl
    (fun total c => total + RI.nutrient_value fdref fnref nid c) 0

def Meal.macro_weights (fdref : FdRef) (fnref : FnRef) (m : Meal) : Dict ℚ :=
  m.children.foldl
    (fun total c => summed_dicts total (RI.macro_weights fdref fnref c))
    macro_base

/-- `Diet`: description, date, and Meal children. -/
structure Diet where
  description : String
  date : Date
  children : List Meal

def Diet.state (d : Diet) : Val :=
  .l [.s "D", .l (d.children.map Meal.state), .s d.description,
      .s (formatDate d.date)]

/-- `Diet.template_state`: meals template-projected, date replaced by
`None`. -/
def Diet.template_state (d : Diet) : Val :=
  .l [.s "D", .l (d.children.map Meal.template_state), .s d.description,
      .nil]

/-- `Diet.set_state`: each child is rebuilt as a fresh `Meal()`; a `None`
date means "use `datetime.datetime.now().date()`", passed in as `today`. -/
def Diet.set_state (today : Date) : Val → Option Diet
  | .l (_ :: .l ms :: .s d :: dv :: _) =>
      match parse_list Meal.set_state ms with
      | some children =>
          match dv with
          | .nil => some ⟨d, today, children⟩
          | .s ds =>
              match parseDate ds with
              | some dt => some ⟨d, dt, children⟩
              | none => none
          | _ => none
      | none => none
  | _ => none

def Diet.nutrient_value (fdref : FdRef) (fnref : FnRef) (d : Diet)
    (nid : String) : ℚ :=
  d.children.foldl
    (fun total m => total + m.nutrient_value fdref fnref nid) 0

def Diet.macro_weights (fdref : FdRef) (fnref : FnRef) (d : Diet) : Dict ℚ :=
  d.children.foldl
    (fun total m => summed_dicts total (m.macro_weights fdref fnref))
    macro_base

/-! ### Fitness build elements -/

/-- `Session`: referenced Exercise item id, and the 0-or-1-entry container
holding the performance measurement `[effort, intensity, note]`. -/
structure Session where
  itemid : String
  data : Option (ℚ × ℚ × String)
  deriving DecidableEq

def Session.effort (s : Session) : ℚ :=
  match s.data with
  | some d => d.1
  | none => 0

def Session.intensity (s : Session) : ℚ :=
  match s.data with
  | some d => d.2.1
  | none => 0

def Session.note (s : Session) : String :=
  match s.data with
  | some d => d.2.2
  | none => ""

def Session.magnitude (s : Session) : ℚ := s.effort * s.intensity

def Session.state (s : Session) : Val :=
  .l [.s "S", .n s.effort, .n s.intensity, .s s.note]

/-- `Session.set_state`: store `new_state[1:]` as the single container
entry. The tag position is not inspected. -/
def Session.set_state (item_id : String) : Val → Option Session
  | .l (_ :: .n e :: .n i :: .s nt :: _) => some ⟨item_id, some (e, i, nt)⟩
  | _ => none

/-- `Session.focusmuscle`: `self.edref()[self._itemid][1]`; `none` is the
raised `KeyError`. -/
def Session.focusmuscle (edref : EdRef) (s : Session) : Option String :=
  (dget edref s.itemid).map ExerciseDetail.focusmuscle

/-- `Session.tags`: `self.edref()[self._itemid][3]`. -/
def Session.tags (edref : EdRef) (s : Session) : Option (List String) :=
  (dget edref s.itemid).map ExerciseDetail.tags

/-- `Activity`: referenced Exercise item id and child `Session` objects. -/
structure Activity where
  itemid : String
  children : List Session
  deriving DecidableEq

def Activity.focusmuscle (edref : EdRef) (a : Activity) : Option String :=
  (dget edref a.itemid).map ExerciseDetail.focusmuscle

def Activity.tags (edref : EdRef) (a : Activity) : Option (List String) :=
  (dget edref a.itemid).map ExerciseDetail.tags

def Activity.state (a : Activity) : Val :=
  .l [.s "A", .l (a.children.map Session.state), .s a.itemid]

/-- `Activity.template_state`: `['A', [], itemid]` — the Session list is
always left empty. -/
def Activity.template_state (a : Activity) : Val :=
  .l [.s "A", .l [], .s a.itemid]

/-- `Activity.set_state`: rebuild the container from `new_state[1]`,
passing this Activity's own item id to each fresh child `Session`. -/
def Activity.set_state (item_id : String) : Val → Option Activity
  | .l (_ :: .l ss :: _) =>
      match parse_list (Session.set_state item_id) ss with
      | some cs => some ⟨item_id, cs⟩
      | none => none
  | _ => none

/-- The per-child step of `Workout.set_state`:
`Activity(activity_state[2])` followed by `activity.set_state(...)`. -/
def parse_activity_child : Val → Option Activity
  | .l (_ :: .l ss :: .s iid :: _) =>
      match parse_list (Session.set_state iid) ss with
      | some cs => some ⟨iid, cs⟩
      | none => none
  | _ => none

/-- `Workout`: description, period `[began, ended]`, Activity children. -/
structure Workout where
  description : String
  period : DT × DT
  children : List Activity
  deriving DecidableEq

def Workout.began (w : Workout) : DT := w.period.1

def Workout.ended (w : Workout) : DT := w.period.2

def Workout.state (w : Workout) : Val :=
  .l [.s "W", .l (w.children.map Activity.state), .s w.description,
      .l [.s (formatDT w.began), .s (formatDT w.ended)]]

/-- `Workout.template_state`: activities template-projected, period
replaced by `[None, None]`. -/
def Workout.template_state (w : Workout) : Val :=
  .l [.s "W", .l (w.children.map Activity.template_state),
      .s w.description, .l [.nil, .nil]]

/-- The default Workout period: `today` at 00:00 and at 01:00. -/
def default_period (today : Date) : DT × DT :=
  (⟨today, 0, 0⟩, ⟨today, 1, 0⟩)

/-- `Workout.set_state`: rebuild children, assign the description, then the
period — the default one when `None in new_state[3]`, otherwise both ends
`strptime`-parsed. -/
def Workout.set_state (today : Date) : Val → Option Workout
  | .l (_ :: .l as :: .s d :: pv :: _) =>
      match parse_list parse_activity_child as with
      | some children =>
          match pv with
          | .l pvs =>
              if pvs.any Val.isNil then
                some ⟨d, default_period today, children⟩
              else
                match pvs with
                | .s b :: .s e :: _ =>
                    match parseDT b, parseDT e with
                    | some bd, some ed => some ⟨d, (bd, ed), children⟩
                    | _, _ => none
                | _ => none
          | _ => none
      | none => none
  | _ => none

/-- `Cycle`: description and Workout children. -/
structure Cycle where
  description : String
  children : List Workout
  deriving DecidableEq

def Cycle.state (c : Cycle) : Val :=
  .l [.s "C", .l (c.children.map Workout.state), .s c.description]

def Cycle.template_state (c : Cycle) : Val :=
  .l [.s "C", .l (c.children.map Workout.template_state), .s c.description]

/-- `Cycle.set_state`: each child is rebuilt as a fresh `Workout()`. -/
def Cycle.set_state (today : Date) : Val → Option Cycle
  | .l (_ :: .l ws :: .s d :: _) =>
      match parse_list (Workout.set_state today) ws with
      | some children => some ⟨d, children⟩
      | none => none
  | _ => none

/-- `Program`: description, start date, Cycle children. -/
structure Program where
  description : String
  start : Date
  children : List Cycle
  deriving DecidableEq

def Program.state (p : Program) : Val :=
  .l [.s "P", .l (p.children.map Cycle.state), .s p.description,
      .s (formatDate p.start)]

def Program.template_state (p : Program) : Val :=
  .l [.s "P", .l (p.children.map Cycle.template_state), .s p.description,
      .nil]

/-- `Program.set_state`: each child rebuilt as a fresh `Cycle()`; a `None`
start means "use `datetime.datetime.now().date()`", passed in as `today`. -/
def Program.set_state (today : Date) : Val → Option Program
  | .l (_ :: .l cs :: .s d :: sv :: _) =>
      match parse_list (Cycle.set_state today) cs with
      | some children =>
          match sv with
          | .nil => some ⟨d, today, children⟩
          | .s ss =>
              match parseDate ss with
              | some st => some ⟨d, st, children⟩
              | none => none
          | _ => none
      | none => none
  | _ => none

/-! ### Fitness aggregation -/

/-- A `Gymbag`-style aggregation loop: query each child, merge with `g`,
propagating a raised `KeyError` (`none`). -/
def agg_fold {α β : Type} (f : α → Option β) (g : β → β → β) :
    β → List α → Option β
  | acc, [] => some acc
  | acc, x :: xs =>
      match f x with
      | some d => agg_fold f g (g acc d) xs
      | none => none

/-- `Session.muscle_sessions`: `{focusmuscle: 1}` — returned whether or not
the container holds a measurement. -/
def Session.muscle_sessions (edref : EdRef) (s : Session) : Option (Dict ℚ) :=
  match Session.focusmuscle edref s with
  | some fm => some [(fm, 1)]
  | none => none

/-- `Activity.muscle_sessions`: `{focusmuscle: len(container)}` when the
container is non-empty, else `{}` (without consulting the table). -/
def Activity.muscle_sessions (edref : EdRef) (a : Activity) :
    Option (Dict ℚ) :=
  match a.children with
  | [] => some []
  | _ =>
      match Activity.focusmuscle edref a with
      | some fm => some [(fm, (a.children.length : ℚ))]
      | none => none

/-- `Gymbag.muscle_sessions` as inherited by `Workout`. -/
def Workout.muscle_sessions (edref : EdRef) (w : Workout) :
    Option (Dict ℚ) :=
  agg_fold (Activity.muscle_sessions edref) summed_dicts [] w.children

/-- `Gymbag.muscle_sessions` as inherited by `Cycle`. -/
def Cycle.muscle_sessions (edref : EdRef) (c : Cycle) : Option (Dict ℚ) :=
  agg_fold (Workout.muscle_sessions edref) summed_dicts [] c.children

/-- `Gymbag.muscle_sessions` as inherited by `Program`. -/
def Program.muscle_sessions (edref : EdRef) (p : Program) :
    Option (Dict ℚ) :=
  agg_fold (Cycle.muscle_sessions edref) summed_dicts [] p.children

/-- `results_type`: `'effort'`, `'intensity'` or `'magnitude'`. -/
inductive RType where
  | effort
  | intensity
  | magnitude
  deriving DecidableEq

/-- `exercise_property`: `'itemid'`, `'focusmuscle'` or `'tags'`. -/
inductive PType where
  | itemid
  | focusmuscle
  | tags
  deriving DecidableEq

/-- `getattr(self, results_type)()` on a Session. -/
def Session.perf_value (rt : RType) (s : Session) : ℚ :=
  match rt with
  | .effort => s.effort
  | .intensity => s.intensity
  | .magnitude => s.magnitude

/-- `{key: performance for key in keys}` — a dict comprehension,
deduplicating repeated keys. -/
def keys_dict (keys : List String) (v : ℚ) : Dict ℚ :=
  keys.foldl (fun d k => dset d k v) []

/-- `getattr(self, exercise_property)()` on a Session, as a key list
(`tags` fans out; the others are singletons). -/
def Session.prop_keys (edref : EdRef) (ep : PType) (s : Session) :
    Option (List String) :=
  match ep with
  | .itemid => some [s.itemid]
  | .focusmuscle => (Session.focusmuscle edref s).map (fun fm => [fm])
  | .tags => Session.tags edref s

/-- `Session.performance_results`: `{}` when no measurement is stored;
otherwise the property key(s) mapped to the requested value. -/
def Session.performance_results (edref : EdRef) (rt : RType) (ep : PType)
    (s : Session) : Option (Dict ℚ) :=
  match s.data with
  | none => some []
  | some _ =>
      match Session.prop_keys edref ep s with
      | some keys => some (keys_dict keys (Session.perf_value rt s))
      | none => none

/-- The `for session in self.container()` accumulation in
`Activity.performance_results`: sum for effort/magnitude, strict-greater
replacement (i.e. maximum, floored at the start value 0) for intensity. -/
def Activity.perf_value (rt : RType) (a : Activity) : ℚ :=
  a.children.foldl
    (fun performance s =>
      match rt with
      | .effort => performance + s.effort
      | .magnitude => performance + s.magnitude
      | .intensity =>
          if s.intensity > performance then s.intensity else performance) 0

def Activity.prop_keys (edref : EdRef) (ep : PType) (a : Activity) :
    Option (List String) :=
  match ep with
  | .itemid => some [a.itemid]
  | .focusmuscle => (Activity.focusmuscle edref a).map (fun fm => [fm])
  | .tags => Activity.tags edref a

/-- `Activity.performance_results`: `{}` when the container is empty;
otherwise the property key(s) mapped to the accumulated value. -/
def Activity.performance_results (edref : EdRef) (rt : RType) (ep : PType)
    (a : Activity) : Option (Dict ℚ) :=
  match a.children with
  | [] => some []
  | _ =>
      match Activity.prop_keys edref ep a with
      | some keys => some (keys_dict keys (Activity.perf_value rt a))
      | none => none

/-- The per-activity merge in `Workout.performance_results`:
`summed_dicts` for effort/magnitude, `maxed_dicts` for intensity. -/
def perf_merge (rt : RType) (acc d : Dict ℚ) : Dict ℚ :=
  match rt with
  | .effort => summed_dicts acc d
  | .magnitude => summed_dicts acc d
  | .intensity => maxed_dicts acc d

/-- `Workout.performance_results`: merge the activity maps, then
`{began_string: performance} if performance else {}`. -/
def Workout.performance_results (edref : EdRef) (rt : RType) (ep : PType)
    (w : Workout) : Option (Dict (Dict ℚ)) :=
  match agg_fold (Activity.performance_results edref rt ep) (perf_merge rt)
      [] w.children with
  | some performance =>
      some (if performance.isEmpty then []
            else [(formatDT w.began, performance)])
  | none => none

/-- `Gymbag.performance_results` as inherited by `Cycle`:
`total_performance.update(child_results)` over the child Workouts. -/
def Cycle.performance_results (edref : EdRef) (rt : RType) (ep : PType)
    (c : Cycle) : Option (Dict (Dict ℚ)) :=
  agg_fold (Workout.performance_results edref rt ep) dupdate [] c.children

/-- `Gymbag.performance_results` as inherited by `Program`. -/
def Program.performance_results (edref : EdRef) (rt : RType) (ep : PType)
    (p : Program) : Option (Dict (Dict ℚ)) :=
  agg_fold (Cycle.performance_results edref rt ep) dupdate [] p.children

/-! ### Specification-side helper functions

Used to state key-wise properties of the aggregation results. -/

/-- Key-wise sum over a list of dicts: present iff some dict holds the key. -/
def sumLookups : List (Dict ℚ) → String → Option ℚ
  | [], _ => none
  | m :: ms, k =>
      match dget m k, sumLookups ms k with
      | none, r => r
      | some v, none => some v
      | some v, some r => some (v + r)

/-- Key-wise maximum over a list of dicts. -/
def maxLookups : List (Dict ℚ) → String → Option ℚ
  | [], _ => none
  | m :: ms, k =>
      match dget m k, maxLookups ms k with
      | none, r => r
      | some v, none => some v
      | some v, some r => some (max v r)

/-- The per-key combination `Workout.performance_results` applies across
its activities: key-wise sum for effort/magnitude, key-wise maximum for
intensity. -/
def combineLookups (rt : RType) : List (Dict ℚ) → String → Option ℚ :=
  match rt with
  | .effort => sumLookups
  | .magnitude => sumLookups
  | .intensity => maxLookups

/-- The binding a right-biased key union keeps: the last dict holding the
key wins. -/
def last_binding {α : Type} : List (Dict α) → String → Option α
  | [], _ => none
  | m :: ms, k =>
      match last_binding ms k with
      | some v => some v
      | none => dget m k

/-! ### Well-formedness of build elements

The constraints their Python `datetime` fields satisfy by construction. -/

def Meal.Wf (m : Meal) : Prop := m.time.Wf

def Diet.Wf (d : Diet) : Prop := d.date.Wf ∧ ∀ m ∈ d.children, m.Wf

def Workout.Wf (w : Workout) : Prop := w.began.Wf ∧ w.ended.Wf

def Cycle.Wf (c : Cycle) : Prop := ∀ w ∈ c.children, w.Wf

def Program.Wf (p : Program) : Prop := p.start.Wf ∧ ∀ c ∈ p.children, c.Wf

instance (m : Meal) : Decidable m.Wf := by unfold Meal.Wf; infer_instance
instance (d : Diet) : Decidable d.Wf := by unfold Diet.Wf; infer_instance
instance (w : Workout) : Decidable w.Wf := by unfold Workout.Wf; infer_instance
instance (c : Cycle) : Decidable c.Wf := by unfold Cycle.Wf; infer_instance
instance (p : Program) : Decidable p.Wf := by
  unfold Program.Wf; infer_instance

/-! ### Bridge lemmas -/

theorem RI.state_list_eq (cs : List RI) : RI.state_list cs = cs.map RI.state := by
  induction cs with
  | nil => rfl
  | cons c cs ih => simp [RI.state_list, ih]

/-- The `weight()` unit-sequence scan returns the first match, else 0. -/
theorem weight_scan_eq_find (seqs : List (ℚ × String × ℚ)) (amount : ℚ)
    (unit : String) :
    weight_scan seqs amount unit =
      match seqs.find? (fun s => s.2.1 == unit) with
      | some s => (amount / s.1) * s.2.2
      | none => 0 := by
  induction seqs with
  | nil => rfl
  | cons hd tl ih =>
    by_cases h : hd.2.1 = unit
    · simp [weight_scan, List.find?, h]
    · simp only [weight_scan, if_neg h, ih, List.find?]
      have hb : (hd.2.1 == unit) = false := by
        simpa using h
      rw [hb]

/-! ### Claim theorems -/

/-- C10: a Quantity with an empty container reports amount 0, unit
`"no unit"`, weight 0 and state `["Q", 0, "no unit"]`; a Session with an
empty container reports effort 0, intensity 0, note `""`, magnitude 0 and
state `["S", 0, 0, ""]`. -/
theorem C10_empty_leaf_defaults :
    (∀ (item_id : String) (fdref : FdRef),
      (Quantity.mk item_id none).amount = 0 ∧
      (Quantity.mk item_id none).unit = "no unit" ∧
      Quantity.weight fdref ⟨item_id, none⟩ = some 0 ∧
      Quantity.state ⟨item_id, none⟩ = .l [.s "Q", .n 0, .s "no unit"]) ∧
    (∀ item_id : String,
      (Session.mk item_id none).effort = 0 ∧
      (Session.mk item_id none).intensity = 0 ∧
      (Session.mk item_id none).note = "" ∧
      (Session.mk item_id none).magnitude = 0 ∧
      Session.state ⟨item_id, none⟩ = .l [.s "S", .n 0, .n 0, .s ""]) := by
  constructor
  · intro item_id fdref
    refine ⟨rfl, rfl, ?_, rfl⟩
    simp [Quantity.weight, Quantity.amount]
  · intro item_id
    refine ⟨rfl, rfl, rfl, ?_, rfl⟩
    simp [Session.magnitude, Session.effort, Session.intensity]

/-- C3: for a Quantity whose referenced food id is present in Food
Details: amount 0 gives 0; unit `"g"` gives the amount unchanged; otherwise
the food's unit sequences are scanned in order for the first entry with the
stored unit, giving `(amount / seqAmount) * seqWeight`, and 0 when no entry
matches. -/
theorem C3_weight_algorithm (fdref : FdRef) (q : Quantity) (fd : FoodDetail)
    (hfd : dget fdref q.itemid = some fd) :
    (q.amount = 0 → Quantity.weight fdref q = some 0) ∧
    (q.amount ≠ 0 → q.unit = "g" → Quantity.weight fdref q = some q.amount) ∧
    (q.amount ≠ 0 → q.unit ≠ "g" →
      Quantity.weight fdref q =
        some (match fd.unitsequences.find? (fun s => s.2.1 == q.unit) with
              | some s => (q.amount / s.1) * s.2.2
              | none => 0)) := by
  refine ⟨?_, ?_, ?_⟩
  · intro h0
    simp [Quantity.weight, h0]
  · intro h0 hg
    simp [Quantity.weight, h0, hg]
  · intro h0 hg
    simp only [Quantity.weight, if_neg h0, if_neg hg, hfd]
    rw [weight_scan_eq_find]

/-- C3 witness: food `"F1"` with unit sequence `[1, "cup", 240]`; a
Quantity of `[2, "cup"]` weighs `(2 / 1) * 240 = 480`. -/
theorem C3_weight_algorithm_witness :
    Quantity.weight [("F1", ⟨"Apple", "0100", [(1, "cup", 240)]⟩)]
      ⟨"F1", some (2, "cup")⟩ = some 480 := by
  have h := (C3_weight_algorithm
    [("F1", ⟨"Apple", "0100", [(1, "cup", 240)]⟩)]
    ⟨"F1", some (2, "cup")⟩ ⟨"Apple", "0100", [(1, "cup", 240)]⟩
    (by rfl)).2.2 (by norm_num [Quantity.amount]) (by decide)
  rw [h]
  norm_num [Quantity.amount, Quantity.unit]

/-- C2: the per-variant template projections. Recipe's template state is
its state unchanged (its Ingredient children and their Quantities are
serialized through `state()` unchanged — `Quantity`/`Ingredient` define no
`template_state` of their own); Meal replaces the time field with the
sentinel `"00:00"`; Diet projects its Meals and nulls the date; Activity
keeps only the exercise id with an empty child list; Workout projects its
Activities and nulls the period pair; Cycle projects its Workouts with its
own scalar unchanged; Program projects its Cycles and nulls the start
date. -/
theorem C2_template_projection :
    (∀ (d : String) (p : ℚ × ℚ × String) (cs : List RI),
      Recipe.template_state d p cs = RI.state (.recipe d p cs) ∧
      Recipe.template_state d p cs =
        .l [.s "R", .l (cs.map RI.state), .s d,
            .l [.n p.1, .n p.2.1, .s p.2.2]]) ∧
    (∀ m : Meal,
      Meal.state m =
        .l ([.s "M", .l (m.children.map RI.state), .s m.description] ++
            [.s (formatHM m.time)]) ∧
      Meal.template_state m =
        .l ([.s "M", .l (m.children.map RI.state), .s m.description] ++
            [.s "00:00"])) ∧
    (∀ d : Diet,
      Diet.template_state d =
        .l [.s "D", .l (d.children.map Meal.template_state),
            .s d.description, .nil]) ∧
    (∀ a : Activity,
      Activity.template_state a = .l [.s "A", .l [], .s a.itemid]) ∧
    (∀ w : Workout,
      Workout.template_state w =
        .l [.s "W", .l (w.children.map Activity.template_state),
            .s w.description, .l [.nil, .nil]]) ∧
    (∀ c : Cycle,
      Cycle.template_state c =
        .l [.s "C", .l (c.children.map Workout.template_state),
            .s c.description]) ∧
    (∀ p : Program,
      Program.template_state p =
        .l [.s "P", .l (p.children.map Cycle.template_state),
            .s p.description, .nil]) := by
  refine ⟨?_, ?_, fun d => rfl, fun a => rfl, fun w => rfl, fun c => rfl,
    fun p => rfl⟩
  · intro d p cs
    refine ⟨rfl, ?_⟩
    simp [Recipe.template_state, RI.state, RI.state_list_eq]
  · intro m
    constructor
    · simp [Meal.state, RI.state_list_eq]
    · simp [Meal.template_state, Meal.state, RI.state_list_eq, List.take]

/-- C9 counterexample: with food id `"F9"` absent from both food tables, a
`KeyError` is raised inside the `try` body of `Quantity.nutrient_value`
(`attempt = none`), but the method recovers locally and returns 0 instead
of propagating the fault, contrary to the claim. -/
theorem C9_counterexample :
    Quantity.nutrient_value_attempt [] [] ⟨"F9", some (1, "cup")⟩ "203" =
      none ∧
    Quantity.nutrient_value [] [] ⟨"F9", some (1, "cup")⟩ "203" = 0 := by
  constructor <;> rfl

/-- C9 amended: `Ingredient.description` and `Quantity.weight` (the latter
only when the amount is nonzero and the unit is not `"g"`) raise the
index/key fault when the reference id is absent; `Quantity.nutrient_value`
instead catches the `KeyError` and recovers locally to 0. -/
theorem C9_reference_not_found (fdref : FdRef) (fnref : FnRef) :
    (∀ ing : Ingredient, dget fdref ing.itemid = none →
      Ingredient.description fdref ing = none) ∧
    (∀ q : Quantity, dget fdref q.itemid = none → q.amount ≠ 0 →
      q.unit ≠ "g" → Quantity.weight fdref q = none) ∧
    (∀ (q : Quantity) (nid : String), dget fnref q.itemid = none →
      Quantity.nutrient_value fdref fnref q nid = 0) := by
  refine ⟨?_, ?_, ?_⟩
  · intro ing h
    simp [Ingredient.description, h]
  · intro q h h0 hg
    simp [Quantity.weight, h0, hg, h]
  · intro q nid h
    simp [Quantity.nutrient_value, Quantity.nutrient_value_attempt, h]

/-- C9 witness: with empty reference tables, `Ingredient.description`
and `Quantity.weight` (nonzero amount, non-`"g"` unit) raise, while
`Quantity.nutrient_value` returns 0. -/
theorem C9_reference_not_found_witness :
    Ingredient.description [] ⟨"F9", []⟩ = none ∧
    Quantity.weight [] ⟨"F9", some (1, "cup")⟩ = none ∧
    Quantity.nutrient_value [] [] ⟨"F9", some (2, "cup")⟩ "204" = 0 := by
  refine ⟨(C9_reference_not_found [] []).1 ⟨"F9", []⟩ rfl,
    (C9_reference_not_found [] []).2.1 ⟨"F9", some (1, "cup")⟩ rfl
      (by norm_num [Quantity.amount]) (by decide),
    (C9_reference_not_found [] []).2.2 ⟨"F9", some (2, "cup")⟩ "204" rfl⟩

/-! ### Fold lemmas for the aggregation loops -/

theorem agg_fold_eq_fold {α β : Type} (f : α → Option β) (g : β → β → β)
    {l : List α} {ms : List β}
    (hrel : List.Forall₂ (fun a m => f a = some m) l ms) :
    ∀ acc, agg_fold f g acc l = some (ms.foldl g acc) := by
  induction hrel with
  | nil => intro acc; rfl
  | cons ha _ ih =>
    intro acc
    simp only [agg_fold, ha, List.foldl_cons]
    exact ih _

theorem nodup_of_forall₂ {α : Type} {γ : Type} (f : α → Option (Dict γ))
    (hf : ∀ a d, f a = some d → DNodup d) {l : List α} {ms : List (Dict γ)}
    (hrel : List.Forall₂ (fun a m => f a = some m) l ms) :
    ∀ m ∈ ms, DNodup m := by
  induction hrel with
  | nil => intro m hm; exact absurd hm (by simp)
  | cons ha _ ih =>
    intro m hm
    rcases List.mem_cons.mp hm with h | h
    · subst h
      exact hf _ _ ha
    · exact ih m h

theorem dget_foldl_summed (ms : List (Dict ℚ)) (hms : ∀ m ∈ ms, DNodup m) :
    ∀ acc, DNodup acc → ∀ k,
      dget (ms.foldl summed_dicts acc) k =
        match sumLookups ms k with
        | none => dget acc k
        | some v => some ((dget acc k).getD 0 + v) := by
  induction ms with
  | nil => intro acc _ k; rfl
  | cons m ms ih =>
    intro acc hacc k
    have hm : DNodup m := hms m (by simp)
    have hrest : ∀ x ∈ ms, DNodup x := fun x hx => hms x (by simp [hx])
    simp only [List.foldl_cons]
    rw [ih hrest _ (DNodup_summed acc m) k, dget_summed acc m k hacc hm]
    rcases hA : dget acc k with _ | a <;> rcases hM : dget m k with _ | v <;>
      rcases hS : sumLookups ms k with _ | s <;>
        simp [sumLookups, hA, hM, hS, add_assoc]

theorem dget_foldl_summed_nil (ms : List (Dict ℚ))
    (hms : ∀ m ∈ ms, DNodup m) (k : String) :
    dget (ms.foldl summed_dicts []) k = sumLookups ms k := by
  rw [dget_foldl_summed ms hms [] (by simp [DNodup, keysOf]) k]
  rcases hS : sumLookups ms k with _ | s <;> simp [dget]

theorem if_gt_eq_max (a b : ℚ) : (if b > a then b else a) = max a b := by
  rcases le_or_lt b a with h | h
  · simp [not_lt.mpr h, max_eq_left h]
  · simp [h, max_eq_right h.le]

theorem dget_foldl_maxed (ms : List (Dict ℚ)) (hms : ∀ m ∈ ms, DNodup m) :
    ∀ acc, DNodup acc → ∀ k,
      dget (ms.foldl maxed_dicts acc) k =
        match maxLookups ms k with
        | none => dget acc k
        | some v =>
            some (match dget acc k with
                  | none => v
                  | some a => max a v) := by
  induction ms with
  | nil => intro acc _ k; rfl
  | cons m ms ih =>
    intro acc hacc k
    have hm : DNodup m := hms m (by simp)
    have hrest : ∀ x ∈ ms, DNodup x := fun x hx => hms x (by simp [hx])
    simp only [List.foldl_cons]
    rw [ih hrest _ (DNodup_maxed acc m) k, dget_maxed acc m k hacc hm]
    rcases hA : dget acc k with _ | a <;> rcases hM : dget m k with _ | v <;>
      rcases hS : maxLookups ms k with _ | s <;>
        simp [maxLookups, hA, hM, hS, if_gt_eq_max, max_assoc]

theorem dget_foldl_maxed_nil (ms : List (Dict ℚ))
    (hms : ∀ m ∈ ms, DNodup m) (k : String) :
    dget (ms.foldl maxed_dicts []) k = maxLookups ms k := by
  rw [dget_foldl_maxed ms hms [] (by simp [DNodup, keysOf]) k]
  rcases hS : maxLookups ms k with _ | s <;> simp [dget]

theorem dget_foldl_dupdate {α : Type} (ms : List (Dict α))
    (hms : ∀ m ∈ ms, DNodup m) :
    ∀ (acc : Dict α) (k : String),
      dget (ms.foldl dupdate acc) k =
        match last_binding ms k with
        | some v => some v
        | none => dget acc k := by
  induction ms with
  | nil => intro acc k; rfl
  | cons m ms ih =>
    intro acc k
    have hm : DNodup m := hms m (by simp)
    have hrest : ∀ x ∈ ms, DNodup x := fun x hx => hms x (by simp [hx])
    simp only [List.foldl_cons]
    rw [ih hrest _ k]
    rcases hL : last_binding ms k with _ | v
    · simp only [last_binding, hL]
      rw [dget_dupdate m hm acc k]
    · simp [last_binding, hL]

theorem dget_foldl_dupdate_nil {α : Type} (ms : List (Dict α))
    (hms : ∀ m ∈ ms, DNodup m) (k : String) :
    dget (ms.foldl dupdate []) k = last_binding ms k := by
  rw [dget_foldl_dupdate ms hms [] k]
  rcases hL : last_binding ms k with _ | v <;> simp [dget]

theorem agg_fold_summed_DNodup {α : Type} (f : α → Option (Dict ℚ))
    (l : List α) :
    ∀ acc r, agg_fold f summed_dicts acc l = some r → DNodup acc →
      DNodup r := by
  induction l with
  | nil =>
    intro acc r h hd
    cases h
    exact hd
  | cons x xs ih =>
    intro acc r h hd
    unfold agg_fold at h
    cases hf : f x with
    | none => rw [hf] at h; exact absurd h (by simp)
    | some d => rw [hf] at h; exact ih _ _ h (DNodup_summed _ _)

theorem foldl_add_shift {α : Type} (f : α → ℚ) (l : List α) :
    ∀ init, l.foldl (fun t x => t + f x) init = init + (l.map f).sum := by
  induction l with
  | nil => intro init; simp
  | cons x xs ih => intro init; simp [ih, add_assoc]

theorem foldl_max_shift {α : Type} (f : α → ℚ) (l : List α) :
    ∀ init, l.foldl (fun t x => if f x > t then f x else t) init =
      (l.map f).foldl max init := by
  induction l with
  | nil => intro init; rfl
  | cons x xs ih =>
    intro init
    simp only [List.foldl_cons, List.map_cons]
    rw [if_gt_eq_max]
    exact ih _

/-! ### C5 -/

theorem activity_muscle_sessions_DNodup (edref : EdRef) (a : Activity)
    (d : Dict ℚ) (h : Activity.muscle_sessions edref a = some d) :
    DNodup d := by
  unfold Activity.muscle_sessions at h
  split at h
  · cases h
    simp [DNodup, keysOf]
  · split at h
    · cases h
      simp [DNodup, keysOf]
    · exact absurd h (by simp)

theorem workout_muscle_sessions_DNodup (edref : EdRef) (w : Workout)
    (d : Dict ℚ) (h : Workout.muscle_sessions edref w = some d) :
    DNodup d :=
  agg_fold_summed_DNodup _ _ _ _ h (by simp [DNodup, keysOf])

theorem cycle_muscle_sessions_DNodup (edref : EdRef) (c : Cycle)
    (d : Dict ℚ) (h : Cycle.muscle_sessions edref c = some d) :
    DNodup d :=
  agg_fold_summed_DNodup _ _ _ _ h (by simp [DNodup, keysOf])

/-- C5 counterexample: a Session whose container holds no measurement
still returns `{focusmuscle: 1}`, not `{}` as the claim states. -/
theorem C5_counterexample :
    Session.muscle_sessions [("E1", ⟨"Bench press", "Chest", ["rep", "lb"],
      []⟩)] ⟨"E1", none⟩ = some [("Chest", 1)] ∧
    some ([("Chest", (1 : ℚ))] : Dict ℚ) ≠ some ([] : Dict ℚ) := by
  constructor
  · rfl
  · simp

/-- C5 amended: `Session.muscle_sessions` is `{focusmuscle: 1}` whether or
not the Session holds a data tuple; an Activity reports
`{focusmuscle: number of child Sessions}` when it has children and `{}`
otherwise; Workout, Cycle and Program return the key-wise sum of their
children's maps. -/
theorem C5_muscle_sessions (edref : EdRef) :
    (∀ (s : Session) (ed : ExerciseDetail), dget edref s.itemid = some ed →
      Session.muscle_sessions edref s = some [(ed.focusmuscle, 1)]) ∧
    (∀ a : Activity, a.children = [] →
      Activity.muscle_sessions edref a = some []) ∧
    (∀ (a : Activity) (ed : ExerciseDetail), a.children ≠ [] →
      dget edref a.itemid = some ed →
      Activity.muscle_sessions edref a =
        some [(ed.focusmuscle, (a.children.length : ℚ))]) ∧
    (∀ (w : Workout) (ms : List (Dict ℚ)),
      List.Forall₂ (fun a m => Activity.muscle_sessions edref a = some m)
        w.children ms →
      ∃ r, Workout.muscle_sessions edref w = some r ∧
        ∀ k, dget r k = sumLookups ms k) ∧
    (∀ (c : Cycle) (ms : List (Dict ℚ)),
      List.Forall₂ (fun w m => Workout.muscle_sessions edref w = some m)
        c.children ms →
      ∃ r, Cycle.muscle_sessions edref c = some r ∧
        ∀ k, dget r k = sumLookups ms k) ∧
    (∀ (p : Program) (ms : List (Dict ℚ)),
      List.Forall₂ (fun c m => Cycle.muscle_sessions edref c = some m)
        p.children ms →
      ∃ r, Program.muscle_sessions edref p = some r ∧
        ∀ k, dget r k = sumLookups ms k) := by
  refine ⟨?_, ?_, ?_, ?_, ?_, ?_⟩
  · intro s ed h
    simp [Session.muscle_sessions, Session.focusmuscle, h]
  · intro a h
    simp [Activity.muscle_sessions, h]
  · intro a ed hne h
    cases hc : a.children with
    | nil => exact absurd hc hne
    | cons x xs =>
      simp [Activity.muscle_sessions, hc, Activity.focusmuscle, h]
  · intro w ms hrel
    refine ⟨ms.foldl summed_dicts [], agg_fold_eq_fold _ _ hrel [], ?_⟩
    exact dget_foldl_summed_nil ms
      (nodup_of_forall₂ _ (activity_muscle_sessions_DNodup edref) hrel)
  · intro c ms hrel
    refine ⟨ms.foldl summed_dicts [], agg_fold_eq_fold _ _ hrel [], ?_⟩
    exact dget_foldl_summed_nil ms
      (nodup_of_forall₂ _ (workout_muscle_sessions_DNodup edref) hrel)
  · intro p ms hrel
    refine ⟨ms.foldl summed_dicts [], agg_fold_eq_fold _ _ hrel [], ?_⟩
    exact dget_foldl_summed_nil ms
      (nodup_of_forall₂ _ (cycle_muscle_sessions_DNodup edref) hrel)

/-- C5 witness: a Workout with one two-Session Activity and one empty
Activity on the same exercise sums key-wise to `{"Chest": 2}`. -/
theorem C5_muscle_sessions_witness :
    ∃ r, Workout.muscle_sessions
        [("E1", ⟨"Bench press", "Chest", ["rep", "lb"], []⟩)]
        ⟨"leg day", default_period ⟨2024, 1, 2⟩,
          [⟨"E1", [⟨"E1", some (5, 100, "")⟩, ⟨"E1", none⟩]⟩, ⟨"E1", []⟩]⟩ =
        some r ∧
      dget r "Chest" = some 2 := by
  obtain ⟨r, hr, hk⟩ :=
    (C5_muscle_sessions [("E1", ⟨"Bench press", "Chest", ["rep", "lb"],
      []⟩)]).2.2.2.1
      ⟨"leg day", default_period ⟨2024, 1, 2⟩,
        [⟨"E1", [⟨"E1", some (5, 100, "")⟩, ⟨"E1", none⟩]⟩, ⟨"E1", []⟩]⟩
      [[("Chest", 2)], []]
      (by constructor
          · rfl
          · constructor
            · rfl
            · exact List.Forall₂.nil)
  exact ⟨r, hr, by rw [hk]; rfl⟩

/-! ### C4 -/

/-- C4 counterexample: an Activity with one data-less child Session has a
non-empty result `{"Chest": 0}`, although no child Session holds a data
tuple — the claim's emptiness condition fails. -/
theorem C4_counterexample :
    Activity.performance_results
      [("E1", ⟨"Bench press", "Chest", ["rep", "lb"], []⟩)] .effort
      .focusmuscle ⟨"E1", [⟨"E1", none⟩]⟩ = some [("Chest", 0)] ∧
    some ([("Chest", (0 : ℚ))] : Dict ℚ) ≠ some ([] : Dict ℚ) := by
  constructor
  · simp [Activity.performance_results, Activity.prop_keys,
      Activity.focusmuscle, Activity.perf_value, keys_dict, dget, dset,
      Session.effort]
  · simp

/-- C4 amended: effort and magnitude results are the sums of the child
Sessions' values (a data-less Session contributing 0); the intensity result
is the maximum of the child intensities together with the start value 0;
the map is keyed by the Activity's exercise property, fanning out to one
key per tag for `tags`; and the result is empty exactly when the Activity
has no child Sessions (a data-less child still yields a 0-valued entry). -/
theorem C4_activity_performance (edref : EdRef) (a : Activity)
    (ed : ExerciseDetail) (hed : dget edref a.itemid = some ed) :
    Activity.perf_value .effort a = (a.children.map Session.effort).sum ∧
    Activity.perf_value .magnitude a =
      (a.children.map Session.magnitude).sum ∧
    Activity.perf_value .intensity a =
      (a.children.map Session.intensity).foldl max 0 ∧
    (∀ rt : RType,
      Activity.performance_results edref rt .itemid a =
        some (if a.children.isEmpty then []
              else [(a.itemid, Activity.perf_value rt a)]) ∧
      Activity.performance_results edref rt .focusmuscle a =
        some (if a.children.isEmpty then []
              else [(ed.focusmuscle, Activity.perf_value rt a)]) ∧
      Activity.performance_results edref rt .tags a =
        some (if a.children.isEmpty then []
              else keys_dict ed.tags (Activity.perf_value rt a))) := by
  refine ⟨?_, ?_, ?_, ?_⟩
  · show a.children.foldl (fun p s => p + s.effort) 0 = _
    rw [foldl_add_shift]
    simp
  · show a.children.foldl (fun p s => p + s.magnitude) 0 = _
    rw [foldl_add_shift]
    simp
  · show a.children.foldl
      (fun p s => if s.intensity > p then s.intensity else p) 0 = _
    rw [foldl_max_shift]
  · intro rt
    have heq : ∀ ep, Activity.performance_results edref rt ep a =
        if a.children.isEmpty then some []
        else
          match Activity.prop_keys edref ep a with
          | some keys => some (keys_dict keys (Activity.perf_value rt a))
          | none => none := by
      intro ep
      unfold Activity.performance_results
      rcases hc : a.children with _ | ⟨x, xs⟩ <;> simp [hc]
    have hpf : Activity.prop_keys edref .focusmuscle a =
        some [ed.focusmuscle] := by
      simp [Activity.prop_keys, Activity.focusmuscle, hed]
    have hpt : Activity.prop_keys edref .tags a = some ed.tags := by
      simp [Activity.prop_keys, Activity.tags, hed]
    have hpi : Activity.prop_keys edref .itemid a = some [a.itemid] := rfl
    refine ⟨?_, ?_, ?_⟩ <;> rw [heq] <;>
      cases hc : a.children.isEmpty <;>
      simp [hc, hpi, hpf, hpt, keys_dict, dset]

/-- C4 witness: the spec's scenario — exercise `"E1"` (focus muscle
`"Chest"`) with Sessions `(5, 100, "")` and `(3, 150, "")`: effort 8,
intensity 150, magnitude 950. -/
theorem C4_activity_performance_witness :
    Activity.performance_results
        [("E1", ⟨"Bench press", "Chest", ["rep", "lb"], []⟩)] .effort
        .focusmuscle
        ⟨"E1", [⟨"E1", some (5, 100, "")⟩, ⟨"E1", some (3, 150, "")⟩]⟩ =
      some [("Chest", 8)] ∧
    Activity.performance_results
        [("E1", ⟨"Bench press", "Chest", ["rep", "lb"], []⟩)] .intensity
        .focusmuscle
        ⟨"E1", [⟨"E1", some (5, 100, "")⟩, ⟨"E1", some (3, 150, "")⟩]⟩ =
      some [("Chest", 150)] ∧
    Activity.performance_results
        [("E1", ⟨"Bench press", "Chest", ["rep", "lb"], []⟩)] .magnitude
        .focusmuscle
        ⟨"E1", [⟨"E1", some (5, 100, "")⟩, ⟨"E1", some (3, 150, "")⟩]⟩ =
      some [("Chest", 950)] := by
  have h := fun rt => (C4_activity_performance
    [("E1", ⟨"Bench press", "Chest", ["rep", "lb"], []⟩)]
    ⟨"E1", [⟨"E1", some (5, 100, "")⟩, ⟨"E1", some (3, 150, "")⟩]⟩
    ⟨"Bench press", "Chest", ["rep", "lb"], []⟩ rfl).2.2.2 rt
  refine ⟨?_, ?_, ?_⟩
  · rw [(h .effort).2.1]
    norm_num [Activity.perf_value, Session.effort]
  · rw [(h .intensity).2.1]
    norm_num [Activity.perf_value, Session.intensity]
  · rw [(h .magnitude).2.1]
    norm_num [Activity.perf_value, Session.magnitude, Session.effort,
      Session.intensity]

/-! ### C6 -/

theorem DNodup_keys_dict (keys : List String) (v : ℚ) :
    DNodup (keys_dict keys v) := by
  unfold keys_dict
  have hgen : ∀ (ks : List String) (init : Dict ℚ), DNodup init →
      DNodup (ks.foldl (fun d k => dset d k v) init) := by
    intro ks
    induction ks with
    | nil => intro init h; exact h
    | cons k ks ih => intro init h; exact ih _ (DNodup_dset _ _ _ h)
  exact hgen keys [] (by simp [DNodup, keysOf])

theorem agg_fold_dupdate_DNodup {α β : Type} (f : α → Option (Dict β))
    (l : List α) :
    ∀ acc r, agg_fold f dupdate acc l = some r → DNodup acc →
      DNodup r := by
  induction l with
  | nil =>
    intro acc r h hd
    cases h
    exact hd
  | cons x xs ih =>
    intro acc r h hd
    unfold agg_fold at h
    cases hf : f x with
    | none => rw [hf] at h; exact absurd h (by simp)
    | some d => rw [hf] at h; exact ih _ _ h (DNodup_dupdate _ _ hd)

theorem activity_performance_DNodup (edref : EdRef) (rt : RType)
    (ep : PType) (a : Activity) (d : Dict ℚ)
    (h : Activity.performance_results edref rt ep a = some d) : DNodup d := by
  unfold Activity.performance_results at h
  split at h
  · cases h
    simp [DNodup, keysOf]
  · split at h
    · cases h
      exact DNodup_keys_dict _ _
    · exact absurd h (by simp)

theorem workout_performance_DNodup (edref : EdRef) (rt : RType)
    (ep : PType) (w : Workout) (d : Dict (Dict ℚ))
    (h : Workout.performance_results edref rt ep w = some d) : DNodup d := by
  unfold Workout.performance_results at h
  split at h
  · cases h
    split
    · simp [DNodup, keysOf]
    · simp [DNodup, keysOf]
  · exact absurd h (by simp)

/-- C6: a Workout combines its Activity maps per property key — sum for
effort/magnitude, per-key maximum for intensity — and wraps the combined
map under its single `began` timestamp (`"%Y-%m-%d %H:%M"`), returning `{}`
when the inner map is empty; Cycle and Program merge Workout-keyed maps by
plain right-biased key union, so of two Workouts sharing a `began`
timestamp the later child's entry silently overwrites the earlier one. -/
theorem C6_workout_performance (edref : EdRef) (rt : RType) (ep : PType) :
    (∀ (w : Workout) (ms : List (Dict ℚ)),
      List.Forall₂ (fun a m =>
        Activity.performance_results edref rt ep a = some m) w.children ms →
      ∃ inner,
        Workout.performance_results edref rt ep w =
          some (if inner.isEmpty then []
                else [(formatDT w.began, inner)]) ∧
        ∀ k, dget inner k = combineLookups rt ms k) ∧
    (∀ (c : Cycle) (ms : List (Dict (Dict ℚ))),
      List.Forall₂ (fun w m =>
        Workout.performance_results edref rt ep w = some m) c.children ms →
      ∃ r, Cycle.performance_results edref rt ep c = some r ∧
        ∀ k, dget r k = last_binding ms k) ∧
    (∀ (p : Program) (ms : List (Dict (Dict ℚ))),
      List.Forall₂ (fun c m =>
        Cycle.performance_results edref rt ep c = some m) p.children ms →
      ∃ r, Program.performance_results edref rt ep p = some r ∧
        ∀ k, dget r k = last_binding ms k) ∧
    (∀ (d : String) (w1 w2 : Workout) (r1 : Dict (Dict ℚ)) (m2 : Dict ℚ),
      formatDT w1.began = formatDT w2.began →
      Workout.performance_results edref rt ep w1 = some r1 →
      Workout.performance_results edref rt ep w2 =
        some [(formatDT w2.began, m2)] →
      ∃ r, Cycle.performance_results edref rt ep ⟨d, [w1, w2]⟩ = some r ∧
        dget r (formatDT w1.began) = some m2) := by
  have hwork : ∀ (w : Workout) (ms : List (Dict ℚ)),
      List.Forall₂ (fun a m =>
        Activity.performance_results edref rt ep a = some m) w.children ms →
      ∃ inner,
        Workout.performance_results edref rt ep w =
          some (if inner.isEmpty then []
                else [(formatDT w.began, inner)]) ∧
        ∀ k, dget inner k = combineLookups rt ms k := by
    intro w ms hrel
    have hnd : ∀ m ∈ ms, DNodup m :=
      nodup_of_forall₂ _ (activity_performance_DNodup edref rt ep)
        hrel
    refine ⟨ms.foldl (perf_merge rt) [], ?_, ?_⟩
    · unfold Workout.performance_results
      rw [agg_fold_eq_fold _ _ hrel []]
    · intro k
      cases rt
      case effort =>
        show dget (ms.foldl summed_dicts []) k = sumLookups ms k
        exact dget_foldl_summed_nil ms hnd k
      case magnitude =>
        show dget (ms.foldl summed_dicts []) k = sumLookups ms k
        exact dget_foldl_summed_nil ms hnd k
      case intensity =>
        show dget (ms.foldl maxed_dicts []) k = maxLookups ms k
        exact dget_foldl_maxed_nil ms hnd k
  have hcyc : ∀ (c : Cycle) (ms : List (Dict (Dict ℚ))),
      List.Forall₂ (fun w m =>
        Workout.performance_results edref rt ep w = some m) c.children ms →
      ∃ r, Cycle.performance_results edref rt ep c = some r ∧
        ∀ k, dget r k = last_binding ms k := by
    intro c ms hrel
    have hnd : ∀ m ∈ ms, DNodup m :=
      nodup_of_forall₂ _ (workout_performance_DNodup edref rt ep)
        hrel
    refine ⟨ms.foldl dupdate [], ?_, ?_⟩
    · unfold Cycle.performance_results
      rw [agg_fold_eq_fold _ _ hrel []]
    · exact dget_foldl_dupdate_nil ms hnd
  refine ⟨hwork, hcyc, ?_, ?_⟩
  · intro p ms hrel
    have hnd : ∀ m ∈ ms, DNodup m := by
      refine nodup_of_forall₂ _ ?_ hrel
      intro c d hc
      exact agg_fold_dupdate_DNodup _ _ _ _ hc (by simp [DNodup, keysOf])
    refine ⟨ms.foldl dupdate [], ?_, ?_⟩
    · unfold Program.performance_results
      rw [agg_fold_eq_fold _ _ hrel []]
    · exact dget_foldl_dupdate_nil ms hnd
  · intro d w1 w2 r1 m2 hts h1 h2
    obtain ⟨r, hr, hk⟩ := hcyc ⟨d, [w1, w2]⟩ [r1, [(formatDT w2.began, m2)]]
      (by exact List.Forall₂.cons h1 (List.Forall₂.cons h2 List.Forall₂.nil))
    refine ⟨r, hr, ?_⟩
    rw [hk]
    simp [last_binding, hts, dget]

/-- C6 witness: one Workout beginning 2024-01-02 10:30 with a single
one-Session Activity; its effort map is wrapped under the began
timestamp. -/
theorem C6_workout_performance_witness :
    ∃ inner,
      Workout.performance_results
          [("E1", ⟨"Bench press", "Chest", ["rep", "lb"], []⟩)] .effort
          .focusmuscle
          ⟨"push day", (⟨⟨2024, 1, 2⟩, 10, 30⟩, ⟨⟨2024, 1, 2⟩, 11, 30⟩),
            [⟨"E1", [⟨"E1", some (5, 100, "")⟩]⟩]⟩ =
        some (if inner.isEmpty then []
              else [(formatDT ⟨⟨2024, 1, 2⟩, 10, 30⟩, inner)]) ∧
      ∀ k, dget inner k = combineLookups .effort [[("Chest", 5)]] k := by
  exact (C6_workout_performance
      [("E1", ⟨"Bench press", "Chest", ["rep", "lb"], []⟩)] .effort
      .focusmuscle).1
    ⟨"push day", (⟨⟨2024, 1, 2⟩, 10, 30⟩, ⟨⟨2024, 1, 2⟩, 11, 30⟩),
      [⟨"E1", [⟨"E1", some (5, 100, "")⟩]⟩]⟩ [[("Chest", 5)]]
    (by refine List.Forall₂.cons ?_ List.Forall₂.nil
        simp [Activity.performance_results, Activity.prop_keys,
          Activity.focusmuscle, dget, Activity.perf_value, keys_dict, dset,
          Session.effort])

/-! ### C7 -/

theorem RI.nv_fold_eq (fdref : FdRef) (fnref : FnRef) (nid : String)
    (cs : List RI) :
    ∀ total, RI.nv_fold fdref fnref nid total cs =
      total + (cs.map (RI.nutrient_value fdref fnref nid)).sum := by
  induction cs with
  | nil => intro t; simp [RI.nv_fold]
  | cons c cs ih => intro t; simp [RI.nv_fold, ih, add_assoc]

/-- C7 counterexample: a Recipe with portion `[1, 2, "piece"]` over a
single child worth 10 yields 5, not the plain sum over children (10) — the
`consumed / prepared` scaling is part of every composite value under a
Recipe. -/
theorem C7_counterexample :
    RI.nutrient_value [("F", ⟨"Oil", "0400", []⟩)] [("F", [("203", 50)])]
        "203"
        (.recipe "half portion" (1, 2, "piece")
          [.ingredient ⟨"F", [⟨"F", some (20, "g")⟩]⟩]) = 5 ∧
    ([RI.ingredient ⟨"F", [⟨"F", some (20, "g")⟩]⟩].map
        (RI.nutrient_value [("F", ⟨"Oil", "0400", []⟩)]
          [("F", [("203", 50)])] "203")).sum = 10 ∧
    (5 : ℚ) ≠ 10 := by
  refine ⟨?_, ?_, by norm_num⟩
  · norm_num [RI.nutrient_value, RI.nv_fold, Ingredient.nutrient_value,
      Quantity.nutrient_value, Quantity.nutrient_value_attempt,
      Quantity.weight, Quantity.amount, Quantity.unit, dget]
  · norm_num [RI.nutrient_value, Ingredient.nutrient_value,
      Quantity.nutrient_value, Quantity.nutrient_value_attempt,
      Quantity.weight, Quantity.amount, Quantity.unit, dget]

/-- C7 amended: at a Quantity whose food id is present in the tables, the
value is `(weight/100) * perHectogramValue`, or 0 when the food's nutrient
dict lacks the id (and `weight()` is defined whenever the food is in Food
Details); Ingredient, Meal and Diet sum over their children, while a Recipe
additionally scales the child sum by `consumed / prepared`; the spec's
scenario (Quantities `[2,"g"]` and `[1,"cup"]` with sequence
`[1,"cup",240]`, nutrient value 10 per 100 g) gives weights 2 and 240 and
a total of 24.2. -/
theorem C7_nutrient_value (fdref : FdRef) (fnref : FnRef) :
    (∀ (q : Quantity) (content : Dict ℚ) (w : ℚ) (nid : String),
      dget fnref q.itemid = some content →
      Quantity.weight fdref q = some w →
      Quantity.nutrient_value fdref fnref q nid =
        match dget content nid with
        | none => 0
        | some hv => (w / 100) * hv) ∧
    (∀ (q : Quantity) (fd : FoodDetail), dget fdref q.itemid = some fd →
      ∃ w, Quantity.weight fdref q = some w) ∧
    (∀ (ing : Ingredient) (nid : String),
      Ingredient.nutrient_value fdref fnref ing nid =
        (ing.children.map
          (fun q => Quantity.nutrient_value fdref fnref q nid)).sum) ∧
    (∀ (d : String) (p : ℚ × ℚ × String) (cs : List RI) (nid : String),
      RI.nutrient_value fdref fnref nid (.recipe d p cs) =
        (p.1 / p.2.1) * (cs.map (RI.nutrient_value fdref fnref nid)).sum) ∧
    (∀ (m : Meal) (nid : String),
      Meal.nutrient_value fdref fnref m nid =
        (m.children.map (RI.nutrient_value fdref fnref nid)).sum) ∧
    (∀ (dd : Diet) (nid : String),
      Diet.nutrient_value fdref fnref dd nid =
        (dd.children.map
          (fun m => Meal.nutrient_value fdref fnref m nid)).sum) ∧
    Quantity.weight [("F", ⟨"Flour", "2000", [(1, "cup", 240)]⟩)]
      ⟨"F", some (2, "g")⟩ = some 2 ∧
    Quantity.weight [("F", ⟨"Flour", "2000", [(1, "cup", 240)]⟩)]
      ⟨"F", some (1, "cup")⟩ = some 240 ∧
    Ingredient.nutrient_value [("F", ⟨"Flour", "2000", [(1, "cup", 240)]⟩)]
      [("F", [("208", 10)])]
      ⟨"F", [⟨"F", some (2, "g")⟩, ⟨"F", some (1, "cup")⟩]⟩ "208" =
      121 / 5 := by
  refine ⟨?_, ?_, ?_, ?_, ?_, ?_, ?_, ?_, ?_⟩
  · intro q content w nid hfn hw
    rcases h2 : dget content nid with _ | hv <;>
      simp [Quantity.nutrient_value, Quantity.nutrient_value_attempt, hfn,
        h2, hw]
  · intro q fd hfd
    unfold Quantity.weight
    by_cases h0 : q.amount = 0
    · exact ⟨0, by simp [h0]⟩
    · by_cases hg : q.unit = "g"
      · exact ⟨q.amount, by simp [h0, hg]⟩
      · exact ⟨weight_scan fd.unitsequences q.amount q.unit,
          by simp [h0, hg, hfd]⟩
  · intro ing nid
    show ing.children.foldl _ 0 = _
    rw [foldl_add_shift]
    simp
  · intro d p cs nid
    show (p.1 / p.2.1) * RI.nv_fold fdref fnref nid 0 cs = _
    rw [RI.nv_fold_eq]
    simp
  · intro m nid
    show m.children.foldl _ 0 = _
    rw [foldl_add_shift]
    simp
  · intro dd nid
    show dd.children.foldl _ 0 = _
    rw [foldl_add_shift]
    simp
  · norm_num [Quantity.weight, Quantity.amount, Quantity.unit]
  · simp [Quantity.weight, Quantity.amount, Quantity.unit, dget,
      weight_scan]
  · simp [Ingredient.nutrient_value, Quantity.nutrient_value,
      Quantity.nutrient_value_attempt, Quantity.weight, Quantity.amount,
      Quantity.unit, dget, weight_scan]
    norm_num

/-- C7 witness: the `[1, "cup"]` Quantity of the scenario alone is worth
`(240 / 100) * 10 = 24`. -/
theorem C7_nutrient_value_witness :
    Quantity.nutrient_value [("F", ⟨"Flour", "2000", [(1, "cup", 240)]⟩)]
      [("F", [("208", 10)])] ⟨"F", some (1, "cup")⟩ "208" = 24 := by
  have hC7 := C7_nutrient_value
    [("F", ⟨"Flour", "2000", [(1, "cup", 240)]⟩)] [("F", [("208", 10)])]
  have h := hC7.1 ⟨"F", some (1, "cup")⟩ [("208", 10)] 240 "208" rfl
    hC7.2.2.2.2.2.2.2.1
  rw [h]
  norm_num [dget]

/-! ### C8 -/

theorem RI.mw_fold_eq (fdref : FdRef) (fnref : FnRef) (cs : List RI) :
    ∀ total, RI.mw_fold fdref fnref total cs =
      cs.foldl
        (fun acc ch => summed_dicts acc (RI.macro_weights fdref fnref ch))
        total := by
  induction cs with
  | nil => intro t; rfl
  | cons c cs ih => intro t; simp [RI.mw_fold, ih]

theorem dget_map_mul (q0 : ℚ) (d : Dict ℚ) (k : String) :
    dget (d.map (fun kv => (kv.1, kv.2 * q0))) k =
      (dget d k).map (fun v => v * q0) := by
  induction d with
  | nil => rfl
  | cons hd tl ih =>
    obtain ⟨k0, v0⟩ := hd
    by_cases h : k0 = k <;> simp [dget, h, ih]

/-- C8: a Recipe with portion `(c, p, u)`, `p ≠ 0`, has macro weights equal
key-wise to the inherited children fold (the key-wise sum of its children's
macro maps over the three macro ids, started from the zero base) with every
value multiplied by `c / p`; and its `nutrient_value` is `c / p` times the
sum of its children's values, for every nutrient id. -/
theorem C8_recipe_portion_scaling (fdref : FdRef) (fnref : FnRef)
    (d : String) (c p : ℚ) (u : String) (cs : List RI) (_hp : p ≠ 0) :
    (∀ k, dget (RI.macro_weights fdref fnref (.recipe d (c, p, u) cs)) k =
      (dget (cs.foldl
        (fun acc ch => summed_dicts acc (RI.macro_weights fdref fnref ch))
        macro_base) k).map (fun v => v * (c / p))) ∧
    (∀ nid, RI.nutrient_value fdref fnref nid (.recipe d (c, p, u) cs) =
      (c / p) * (cs.map (RI.nutrient_value fdref fnref nid)).sum) := by
  constructor
  · intro k
    show dget ((RI.mw_fold fdref fnref macro_base cs).map
      (fun kv => (kv.1, kv.2 * (c / p)))) k = _
    rw [dget_map_mul, RI.mw_fold_eq]
  · intro nid
    show (c / p) * RI.nv_fold fdref fnref nid 0 cs = _
    rw [RI.nv_fold_eq]
    simp

/-- C8 witness: a Recipe consuming 1 of 2 pieces over a child worth 10 is
worth 5. -/
theorem C8_recipe_portion_scaling_witness :
    RI.nutrient_value [("F", ⟨"Oats", "0800", []⟩)] [("F", [("203", 50)])]
      "203"
      (.recipe "half batch" (1, 2, "piece")
        [.ingredient ⟨"F", [⟨"F", some (20, "g")⟩]⟩]) = 5 := by
  rw [(C8_recipe_portion_scaling [("F", ⟨"Oats", "0800", []⟩)]
    [("F", [("203", 50)])] "half batch" 1 2 "piece"
    [.ingredient ⟨"F", [⟨"F", some (20, "g")⟩]⟩] (by norm_num)).2 "203"]
  norm_num [RI.nutrient_value, Ingredient.nutrient_value,
    Quantity.nutrient_value, Quantity.nutrient_value_attempt,
    Quantity.weight, Quantity.amount, Quantity.unit, dget]

/-! ### C1 — round-trip helper lemmas -/

theorem parse_list_roundtrip {α : Type} (f : Val → Option α) (st : α → Val)
    (xs : List α)
    (h : ∀ x ∈ xs, ∃ x', f (st x) = some x' ∧ st x' = st x) :
    ∃ xs', parse_list f (xs.map st) = some xs' ∧
      xs'.map st = xs.map st := by
  induction xs with
  | nil => exact ⟨[], rfl, rfl⟩
  | cons x xs ih =>
    obtain ⟨x', hx', hst⟩ := h x (by simp)
    obtain ⟨xs', hxs', hsts⟩ := ih (fun y hy => h y (by simp [hy]))
    refine ⟨x' :: xs', ?_, ?_⟩
    · simp [parse_list, hx', hxs']
    · simp [hst, hsts]

theorem parse_list_mem {α : Type} (f : Val → Option α) (P : α → Prop)
    (hf : ∀ v x, f v = some x → P x) :
    ∀ (vs : List Val) (xs : List α), parse_list f vs = some xs →
      ∀ x ∈ xs, P x := by
  intro vs
  induction vs with
  | nil =>
    intro xs h x hx
    cases h
    exact absurd hx (by simp)
  | cons v vs ih =>
    intro xs h x hx
    unfold parse_list at h
    cases hv : f v with
    | none => rw [hv] at h; exact absurd h (by simp)
    | some y =>
      rw [hv] at h
      cases hrest : parse_list f vs with
      | none => rw [hrest] at h; exact absurd h (by simp)
      | some ys =>
        rw [hrest] at h
        cases h
        rcases List.mem_cons.mp hx with h' | h'
        · subst h'
          exact hf v x hv
        · exact ih ys hrest x h'

theorem quantity_set_state_roundtrip (item_id : String) (q : Quantity) :
    ∃ q', Quantity.set_state item_id q.state = some q' ∧
      q'.state = q.state :=
  ⟨⟨item_id, some (q.amount, q.unit)⟩, rfl, rfl⟩

theorem session_set_state_roundtrip (item_id : String) (s : Session) :
    ∃ s', Session.set_state item_id s.state = some s' ∧
      s'.state = s.state :=
  ⟨⟨item_id, some (s.effort, s.intensity, s.note)⟩, rfl, rfl⟩

theorem ingredient_set_state_roundtrip (ing : Ingredient) :
    ∃ ing', Ingredient.set_state ing.itemid ing.state = some ing' ∧
      ing'.state = ing.state := by
  obtain ⟨cs', hcs, hst⟩ := parse_list_roundtrip
    (Quantity.set_state ing.itemid) Quantity.state ing.children
    (fun q _ => quantity_set_state_roundtrip ing.itemid q)
  refine ⟨⟨ing.itemid, cs'⟩, ?_, ?_⟩
  · show Ingredient.set_state ing.itemid
      (.l [.s "I", .l (ing.children.map Quantity.state),
        .s ing.itemid]) = _
    simp [Ingredient.set_state, hcs]
  · simp [Ingredient.state, hst]

theorem activity_set_state_roundtrip (a : Activity) :
    ∃ a', Activity.set_state a.itemid a.state = some a' ∧
      a'.state = a.state := by
  obtain ⟨cs', hcs, hst⟩ := parse_list_roundtrip
    (Session.set_state a.itemid) Session.state a.children
    (fun s _ => session_set_state_roundtrip a.itemid s)
  refine ⟨⟨a.itemid, cs'⟩, ?_, ?_⟩
  · show Activity.set_state a.itemid
      (.l [.s "A", .l (a.children.map Session.state), .s a.itemid]) = _
    simp [Activity.set_state, hcs]
  · simp [Activity.state, hst]

theorem parse_activity_child_roundtrip (a : Activity) :
    ∃ a', parse_activity_child a.state = some a' ∧
      a'.state = a.state := by
  obtain ⟨cs', hcs, hst⟩ := parse_list_roundtrip
    (Session.set_state a.itemid) Session.state a.children
    (fun s _ => session_set_state_roundtrip a.itemid s)
  refine ⟨⟨a.itemid, cs'⟩, ?_, ?_⟩
  · show parse_activity_child
      (.l [.s "A", .l (a.children.map Session.state), .s a.itemid]) = _
    simp [parse_activity_child, hcs]
  · simp [Activity.state, hst]

/-- Structural induction over Recipe/Ingredient trees. -/
theorem RI.ind (P : RI → Prop)
    (hr : ∀ d p cs, (∀ c ∈ cs, P c) → P (.recipe d p cs))
    (hi : ∀ ing, P (.ingredient ing)) : ∀ x, P x := by
  have H : ∀ (n : ℕ) (x : RI), sizeOf x ≤ n → P x := by
    intro n
    induction n with
    | zero =>
      intro x hx
      cases x <;> simp at hx
    | succ n ih =>
      intro x hx
      cases x with
      | ingredient ing => exact hi ing
      | recipe d p cs =>
        refine hr d p cs ?_
        intro c hc
        refine ih c ?_
        have hlt := List.sizeOf_lt_of_mem hc
        have hsz : sizeOf (RI.recipe d p cs) =
            1 + sizeOf d + sizeOf p + sizeOf cs := by
          simp
        omega
  exact fun x => H (sizeOf x) x le_rfl

theorem RI.parse_child_roundtrip : ∀ x : RI,
    ∃ x', RI.parse_child (RI.state x) = some x' ∧
      RI.state x' = RI.state x := by
  refine RI.ind _ ?_ ?_
  · intro d p cs hcs
    have hlist : ∃ cs', RI.parse_children (RI.state_list cs) = some cs' ∧
        RI.state_list cs' = RI.state_list cs := by
      induction cs with
      | nil => exact ⟨[], rfl, rfl⟩
      | cons c cs ih =>
        obtain ⟨c', hc', hst⟩ := hcs c (by simp)
        obtain ⟨cs', hcs', hsts⟩ := ih (fun x hx => hcs x (by simp [hx]))
        refine ⟨c' :: cs', ?_, ?_⟩
        · simp [RI.state_list, RI.parse_children, hc', hcs']
        · simp [RI.state_list, hst, hsts]
    obtain ⟨cs', hcs', hsts⟩ := hlist
    refine ⟨.recipe d (p.1, p.2.1, p.2.2) cs', ?_, ?_⟩
    · show RI.parse_child (.l [.s "R", .l (RI.state_list cs), .s d,
        .l [.n p.1, .n p.2.1, .s p.2.2]]) = _
      simp [RI.parse_child, RI.parse_recipe_rest, hcs']
    · simp [RI.state, hsts]
  · intro ing
    obtain ⟨cs', hcs, hst⟩ := parse_list_roundtrip
      (Quantity.set_state ing.itemid) Quantity.state ing.children
      (fun q _ => quantity_set_state_roundtrip ing.itemid q)
    refine ⟨.ingredient ⟨ing.itemid, cs'⟩, ?_, ?_⟩
    · show RI.parse_child
        (.l [.s "I", .l (ing.children.map Quantity.state),
          .s ing.itemid]) = _
      simp [RI.parse_child, hcs]
    · simp [RI.state, Ingredient.state, hst]

theorem RI.parse_children_roundtrip (cs : List RI) :
    ∃ cs', RI.parse_children (RI.state_list cs) = some cs' ∧
      RI.state_list cs' = RI.state_list cs := by
  induction cs with
  | nil => exact ⟨[], rfl, rfl⟩
  | cons c cs ih =>
    obtain ⟨c', hc', hst⟩ := RI.parse_child_roundtrip c
    obtain ⟨cs', hcs', hsts⟩ := ih
    refine ⟨c' :: cs', ?_, ?_⟩
    · simp [RI.state_list, RI.parse_children, hc', hcs']
    · simp [RI.state_list, hst, hsts]

theorem recipe_set_state_roundtrip (d : String) (p : ℚ × ℚ × String)
    (cs : List RI) :
    ∃ x', Recipe.set_state (RI.state (.recipe d p cs)) = some x' ∧
      RI.state x' = RI.state (.recipe d p cs) := by
  obtain ⟨cs', hcs', hsts⟩ := RI.parse_children_roundtrip cs
  refine ⟨.recipe d (p.1, p.2.1, p.2.2) cs', ?_, ?_⟩
  · show Recipe.set_state (.l [.s "R", .l (RI.state_list cs), .s d,
      .l [.n p.1, .n p.2.1, .s p.2.2]]) = _
    simp [Recipe.set_state, RI.parse_recipe_rest, hcs']
  · simp [RI.state, hsts]

theorem meal_set_state_roundtrip (m : Meal) (hwf : m.Wf) :
    ∃ m', Meal.set_state m.state = some m' ∧ m'.state = m.state := by
  obtain ⟨cs', hcs, hst⟩ := RI.parse_children_roundtrip m.children
  refine ⟨⟨m.description, m.time, cs'⟩, ?_, ?_⟩
  · show Meal.set_state (.l [.s "M", .l (RI.state_list m.children),
      .s m.description, .s (formatHM m.time)]) = _
    simp [Meal.set_state, hcs, parseHM_formatHM m.time hwf]
  · simp [Meal.state, hst]

theorem diet_set_state_roundtrip (today : Date) (dd : Diet) (hwf : dd.Wf) :
    ∃ d', Diet.set_state today dd.state = some d' ∧
      d'.state = dd.state := by
  obtain ⟨ms', hms, hsts⟩ := parse_list_roundtrip Meal.set_state Meal.state
    dd.children (fun m hm => meal_set_state_roundtrip m (hwf.2 m hm))
  refine ⟨⟨dd.description, dd.date, ms'⟩, ?_, ?_⟩
  · show Diet.set_state today (.l [.s "D", .l (dd.children.map Meal.state),
      .s dd.description, .s (formatDate dd.date)]) = _
    simp [Diet.set_state, hms, parseDate_formatDate dd.date hwf.1]
  · simp [Diet.state, hsts]

theorem workout_set_state_roundtrip (today : Date) (w : Workout)
    (hwf : w.Wf) :
    ∃ w', Workout.set_state today w.state = some w' ∧
      w'.state = w.state := by
  obtain ⟨as', has, hsts⟩ := parse_list_roundtrip parse_activity_child
    Activity.state w.children (fun a _ => parse_activity_child_roundtrip a)
  refine ⟨⟨w.description, (w.began, w.ended), as'⟩, ?_, ?_⟩
  · show Workout.set_state today
      (.l [.s "W", .l (w.children.map Activity.state), .s w.description,
        .l [.s (formatDT w.began), .s (formatDT w.ended)]]) = _
    simp [Workout.set_state, has, Val.isNil,
      parseDT_formatDT w.began hwf.1, parseDT_formatDT w.ended hwf.2]
  · simp [Workout.state, Workout.began, Workout.ended, hsts]

theorem cycle_set_state_roundtrip (today : Date) (cy : Cycle)
    (hwf : cy.Wf) :
    ∃ c', Cycle.set_state today cy.state = some c' ∧
      c'.state = cy.state := by
  obtain ⟨ws', hws, hsts⟩ := parse_list_roundtrip
    (Workout.set_state today) Workout.state cy.children
    (fun w hw => workout_set_state_roundtrip today w (hwf w hw))
  refine ⟨⟨cy.description, ws'⟩, ?_, ?_⟩
  · show Cycle.set_state today
      (.l [.s "C", .l (cy.children.map Workout.state),
        .s cy.description]) = _
    simp [Cycle.set_state, hws]
  · simp [Cycle.state, hsts]

theorem program_set_state_roundtrip (today : Date) (p : Program)
    (hwf : p.Wf) :
    ∃ p', Program.set_state today p.state = some p' ∧
      p'.state = p.state := by
  obtain ⟨cs', hcs, hsts⟩ := parse_list_roundtrip
    (Cycle.set_state today) Cycle.state p.children
    (fun c hc => cycle_set_state_roundtrip today c (hwf.2 c hc))
  refine ⟨⟨p.description, p.start, cs'⟩, ?_, ?_⟩
  · show Program.set_state today
      (.l [.s "P", .l (p.children.map Cycle.state), .s p.description,
        .s (formatDate p.start)]) = _
    simp [Program.set_state, hcs, parseDate_formatDate p.start hwf.1]
  · simp [Program.state, hsts]

/-! ### C1 — every parsed tree is well-formed -/

theorem meal_set_state_Wf (v : Val) (m : Meal)
    (h : Meal.set_state v = some m) : m.Wf := by
  unfold Meal.set_state at h
  split at h
  · split at h
    · rename_i children tm hcs hhm
      cases h
      exact parseHM_Wf _ tm hhm
    · exact absurd h (by simp)
  · exact absurd h (by simp)

theorem diet_set_state_Wf (today : Date) (ht : today.Wf) (v : Val)
    (dd : Diet) (h : Diet.set_state today v = some dd) : dd.Wf := by
  unfold Diet.set_state at h
  split at h
  · rename_i tag ms d dv rest
    split at h
    · rename_i children hcs
      have hch : ∀ m ∈ children, Meal.Wf m :=
        parse_list_mem Meal.set_state Meal.Wf
          (fun v' x hx => meal_set_state_Wf v' x hx) ms children hcs
      split at h
      · cases h
        exact ⟨ht, hch⟩
      · split at h
        · rename_i dt hdt
          cases h
          exact ⟨parseDate_Wf _ dt hdt, hch⟩
        · exact absurd h (by simp)
      · exact absurd h (by simp)
    · exact absurd h (by simp)
  · exact absurd h (by simp)

theorem workout_set_state_Wf (today : Date) (ht : today.Wf) (v : Val)
    (w : Workout) (h : Workout.set_state today v = some w) : w.Wf := by
  unfold Workout.set_state at h
  split at h
  · split at h
    · split at h
      · split at h
        · cases h
          refine ⟨⟨ht, ?_, ?_⟩, ⟨ht, ?_, ?_⟩⟩
          · show (0 : ℕ) < 24
            decide
          · show (0 : ℕ) < 60
            decide
          · show (1 : ℕ) < 24
            decide
          · show (0 : ℕ) < 60
            decide
        · split at h
          · split at h
            · rename_i bd ed hbd hed
              cases h
              exact ⟨parseDT_Wf _ bd hbd, parseDT_Wf _ ed hed⟩
            · exact absurd h (by simp)
          · exact absurd h (by simp)
      · exact absurd h (by simp)
    · exact absurd h (by simp)
  · exact absurd h (by simp)

theorem cycle_set_state_Wf (today : Date) (ht : today.Wf) (v : Val)
    (cy : Cycle) (h : Cycle.set_state today v = some cy) : cy.Wf := by
  unfold Cycle.set_state at h
  split at h
  · split at h
    · rename_i children hws
      cases h
      exact parse_list_mem (Workout.set_state today) Workout.Wf
        (fun v' x hx => workout_set_state_Wf today ht v' x hx) _ children hws
    · exact absurd h (by simp)
  · exact absurd h (by simp)

theorem program_set_state_Wf (today : Date) (ht : today.Wf) (v : Val)
    (p : Program) (h : Program.set_state today v = some p) : p.Wf := by
  unfold Program.set_state at h
  split at h
  · split at h
    · rename_i children hcs
      have hch : ∀ c ∈ children, Cycle.Wf c :=
        parse_list_mem (Cycle.set_state today) Cycle.Wf
          (fun v' x hx => cycle_set_state_Wf today ht v' x hx) _ children hcs
      split at h
      · cases h
        exact ⟨ht, hch⟩
      · split at h
        · rename_i st hst
          cases h
          exact ⟨parseDate_Wf _ st hst, hch⟩
        · exact absurd h (by simp)
      · exact absurd h (by simp)
    · exact absurd h (by simp)
  · exact absurd h (by simp)

/-- C1: for every build element of each of the ten variants, constructing
a fresh node of the same tag (passing the same reference item id for
Quantity/Ingredient/Session/Activity) and calling `set_state(x.state())`
yields a node whose `state()` equals `x.state()`; and any tree loaded by
`set_state` from a `template_state()` round-trips the same way. The
Quantity, Ingredient, Recipe, Session and Activity cases hold for every
tree outright, so the template-loaded clauses are listed for the variants
whose round trip is conditioned on the `datetime` field ranges the Python
objects maintain by construction (`Wf`). `today` stands for the
`datetime.now()` the source consults when loading a null date. -/
theorem C1_round_trip (today : Date) (htoday : today.Wf) :
    (∀ q : Quantity, ∃ q', Quantity.set_state q.itemid q.state = some q' ∧
      q'.state = q.state) ∧
    (∀ ing : Ingredient, ∃ ing',
      Ingredient.set_state ing.itemid ing.state = some ing' ∧
      ing'.state = ing.state) ∧
    (∀ (d : String) (p : ℚ × ℚ × String) (cs : List RI),
      ∃ x', Recipe.set_state (RI.state (.recipe d p cs)) = some x' ∧
        RI.state x' = RI.state (.recipe d p cs)) ∧
    (∀ m : Meal, m.Wf → ∃ m', Meal.set_state m.state = some m' ∧
      m'.state = m.state) ∧
    (∀ dd : Diet, dd.Wf → ∃ d', Diet.set_state today dd.state = some d' ∧
      d'.state = dd.state) ∧
    (∀ s : Session, ∃ s', Session.set_state s.itemid s.state = some s' ∧
      s'.state = s.state) ∧
    (∀ a : Activity, ∃ a',
      Activity.set_state a.itemid a.state = some a' ∧
      a'.state = a.state) ∧
    (∀ w : Workout, w.Wf → ∃ w',
      Workout.set_state today w.state = some w' ∧ w'.state = w.state) ∧
    (∀ cy : Cycle, cy.Wf → ∃ c',
      Cycle.set_state today cy.state = some c' ∧ c'.state = cy.state) ∧
    (∀ p : Program, p.Wf → ∃ p',
      Program.set_state today p.state = some p' ∧ p'.state = p.state) ∧
    (∀ (y : Meal) (x : Meal), Meal.set_state y.template_state = some x →
      ∃ x', Meal.set_state x.state = some x' ∧ x'.state = x.state) ∧
    (∀ (y : Diet) (x : Diet),
      Diet.set_state today y.template_state = some x →
      ∃ x', Diet.set_state today x.state = some x' ∧
        x'.state = x.state) ∧
    (∀ (y : Workout) (x : Workout),
      Workout.set_state today y.template_state = some x →
      ∃ x', Workout.set_state today x.state = some x' ∧
        x'.state = x.state) ∧
    (∀ (y : Cycle) (x : Cycle),
      Cycle.set_state today y.template_state = some x →
      ∃ x', Cycle.set_state today x.state = some x' ∧
        x'.state = x.state) ∧
    (∀ (y : Program) (x : Program),
      Program.set_state today y.template_state = some x →
      ∃ x', Program.set_state today x.state = some x' ∧
        x'.state = x.state) := by
  refine ⟨fun q => quantity_set_state_roundtrip q.itemid q,
    ingredient_set_state_roundtrip,
    recipe_set_state_roundtrip,
    meal_set_state_roundtrip,
    fun dd hwf => diet_set_state_roundtrip today dd hwf,
    fun s => session_set_state_roundtrip s.itemid s,
    activity_set_state_roundtrip,
    fun w hwf => workout_set_state_roundtrip today w hwf,
    fun cy hwf => cycle_set_state_roundtrip today cy hwf,
    fun p hwf => program_set_state_roundtrip today p hwf,
    fun _ x hx => meal_set_state_roundtrip x (meal_set_state_Wf _ x hx),
    fun _ x hx => diet_set_state_roundtrip today x
      (diet_set_state_Wf today htoday _ x hx),
    fun _ x hx => workout_set_state_roundtrip today x
      (workout_set_state_Wf today htoday _ x hx),
    fun _ x hx => cycle_set_state_roundtrip today x
      (cycle_set_state_Wf today htoday _ x hx),
    fun _ x hx => program_set_state_roundtrip today x
      (program_set_state_Wf today htoday _ x hx)⟩

/-- C1 witness: a concrete one-meal Diet (date 2024-03-04, meal at 08:30,
one Ingredient with one Quantity) round-trips through
`set_state(state())`. -/
theorem C1_round_trip_witness :
    ∃ d', Diet.set_state ⟨2024, 1, 2⟩
        (Diet.state ⟨"day 1", ⟨2024, 3, 4⟩,
          [⟨"breakfast", ⟨8, 30⟩,
            [.ingredient ⟨"F1", [⟨"F1", some (2, "g")⟩]⟩]⟩]⟩) = some d' ∧
      Diet.state d' =
        Diet.state ⟨"day 1", ⟨2024, 3, 4⟩,
          [⟨"breakfast", ⟨8, 30⟩,
            [.ingredient ⟨"F1", [⟨"F1", some (2, "g")⟩]⟩]⟩]⟩ := by
  exact (C1_round_trip ⟨2024, 1, 2⟩ (by decide)).2.2.2.2.1
    ⟨"day 1", ⟨2024, 3, 4⟩,
      [⟨"breakfast", ⟨8, 30⟩,
        [.ingredient ⟨"F1", [⟨"F1", some (2, "g")⟩]⟩]⟩]⟩
    (by constructor
        · decide
        · intro m hm
          rcases List.mem_singleton.mp hm with h
          subst h
          decide)

end OnTrack
